import Mathlib

/-!
A shallow embedding of openwebui_ha_weather_tool.py (class Tools, version 1.0.7)
and proofs about its specified behaviour.

The tool queries five Home Assistant sensor-state endpoints, normalizes
datetime-like strings to a configured timezone, assembles a nested JSON
document and serializes it.  We embed:

  * dynamic JSON values (as produced by response.json()) as a mutual
    inductive JSON / JList / JFields, so that every function on them is
    structurally recursive and kernel-computable;
  * the datetime normalizer _parse_datetime, including faithful models of
    datetime.strptime for the four fixed formats, datetime.fromisoformat
    (the dash/colon-separated subset relevant here), ZoneInfo offsets for
    the zones the development needs, and datetime.isoformat;
  * the fetch helper, the extraction logic and the public orchestration
    get_current_weather_forecast_async, with the network abstracted as an
    oracle from sensor name to HTTP outcome and Python exceptions modelled
    as the Except error channel.

Python raises that the source does not catch (notably ZoneInfoNotFoundError
from the ZoneInfo construction in _parse_datetime, which sits outside every
try block) surface as Except.error; early returns of serialized error
documents are ordinary Except.ok values, exactly as in the source.
-/

namespace HAWT

/-! ## Dynamic JSON values

Mutual inductive so that all recursion below is structural (the kernel can
evaluate it).  A number is carried as its Python repr string (the output of
str() / json serialization on the value json.loads produced); no claim
depends on numeric arithmetic. -/

mutual

inductive JSON where
  | null : JSON
  | bool (b : Bool) : JSON
  | num (rep : String) : JSON
  | str (s : String) : JSON
  | arr (l : JList) : JSON
  | obj (l : JFields) : JSON

inductive JList where
  | nil : JList
  | cons (hd : JSON) (tl : JList) : JList

inductive JFields where
  | nil : JFields
  | cons (k : String) (v : JSON) (tl : JFields) : JFields

end

def JList.ofList : List JSON → JList
  | [] => .nil
  | x :: xs => .cons x (JList.ofList xs)

def JList.toList : JList → List JSON
  | .nil => []
  | .cons x xs => x :: xs.toList

def JFields.ofList : List (String × JSON) → JFields
  | [] => .nil
  | (k, v) :: xs => .cons k v (JFields.ofList xs)

def JFields.toList : JFields → List (String × JSON)
  | .nil => []
  | .cons k v xs => (k, v) :: xs.toList

/-- Convenience constructor: a JSON array from a Lean list. -/
def jarr (l : List JSON) : JSON := .arr (JList.ofList l)

/-- Convenience constructor: a JSON object from a Lean association list. -/
def jobj (l : List (String × JSON)) : JSON := .obj (JFields.ofList l)

theorem JList.toList_ofList (l : List JSON) : (JList.ofList l).toList = l := by
  induction l with
  | nil => rfl
  | cons x xs ih => simp [JList.ofList, JList.toList, ih]

theorem JFields.toList_ofPairs (l : List (String × JSON)) :
    (JFields.ofList l).toList = l := by
  induction l with
  | nil => rfl
  | cons x xs ih => cases x; simp [JFields.ofList, JFields.toList, ih]

/-- Python truthiness of a decoded JSON value (bool(v)): None, False,
numeric zero, empty string, empty list and empty dict are falsy. -/
def truthy : JSON → Bool
  | .null => false
  | .bool b => b
  | .num r => !(r = "0" || r = "-0" || r = "0.0" || r = "-0.0")
  | .str s => s ≠ ""
  | .arr .nil => false
  | .arr _ => true
  | .obj .nil => false
  | .obj _ => true

/-- Python type name of a decoded JSON value, used in AttributeError
messages.  json.loads yields int or float for numbers; we recover which from
the repr (a float repr contains a dot, an exponent or inf/nan). -/
def typeName : JSON → String
  | .null => "NoneType"
  | .bool _ => "bool"
  | .num r =>
      if r.data.any (fun c => c = '.' || c = 'e' || c = 'E' || c = 'i' || c = 'n')
      then "float" else "int"
  | .str _ => "str"
  | .arr _ => "list"
  | .obj _ => "dict"

/-- Lookup in a JSON object viewed as an association list (Python dicts have
unique keys; lookup returns the first binding). -/
def dictGet? (fs : List (String × JSON)) (k : String) : Option JSON :=
  (fs.find? (fun p => p.1 = k)).map (fun p => p.2)

/-- In-place update of the value at a key (entry[key] = v); leaves the key
order untouched, exactly like a Python dict item assignment. -/
def dictSet (fs : List (String × JSON)) (k : String) (v : JSON) :
    List (String × JSON) :=
  fs.map (fun p => if p.1 = k then (p.1, v) else p)

/-! ## Serialization (json.dumps)

The source serializes error documents with the default separators
(", " and ": ") and the final success document with separators=(",", ":"),
always with ensure_ascii=True (the default), which escapes every character
outside 0x20..0x7e as a \uXXXX sequence (surrogate pairs above 0xFFFF). -/

def hexDigitChar (n : Nat) : Char :=
  if n < 10 then Char.ofNat (48 + n) else Char.ofNat (87 + n)

def hex4 (n : Nat) : List Char :=
  [hexDigitChar (n / 4096 % 16), hexDigitChar (n / 256 % 16),
   hexDigitChar (n / 16 % 16), hexDigitChar (n % 16)]

/-- Escape one character the way json.dumps with ensure_ascii=True does. -/
def escapeChar (c : Char) : List Char :=
  if c = '"' then ['\\', '"']
  else if c = '\\' then ['\\', '\\']
  else if c = (Char.ofNat 8) then ['\\', 'b']
  else if c = (Char.ofNat 9) then ['\\', 't']
  else if c = (Char.ofNat 10) then ['\\', 'n']
  else if c = (Char.ofNat 12) then ['\\', 'f']
  else if c = (Char.ofNat 13) then ['\\', 'r']
  else if 32 ≤ c.toNat && c.toNat ≤ 126 then [c]
  else if c.toNat < 65536 then '\\' :: 'u' :: hex4 c.toNat
  else
    let v := c.toNat - 65536
    ('\\' :: 'u' :: hex4 (55296 + v / 1024)) ++ ('\\' :: 'u' :: hex4 (56320 + v % 1024))

def escapeString (s : String) : String :=
  String.mk (s.data.flatMap escapeChar)

def quoteJson (s : String) : String := "\"" ++ escapeString s ++ "\""

mutual

/-- json.dumps with the given item and key separators. -/
def dumpsV (item kv : String) : JSON → String
  | .null => "null"
  | .bool true => "true"
  | .bool false => "false"
  | .num r => r
  | .str s => quoteJson s
  | .arr l => "[" ++ dumpsArr item kv l ++ "]"
  | .obj l => "\x7b" ++ dumpsObj item kv l ++ "\x7d"

def dumpsArr (item kv : String) : JList → String
  | .nil => ""
  | .cons x .nil => dumpsV item kv x
  | .cons x xs => dumpsV item kv x ++ item ++ dumpsArr item kv xs

def dumpsObj (item kv : String) : JFields → String
  | .nil => ""
  | .cons k v .nil => quoteJson k ++ kv ++ dumpsV item kv v
  | .cons k v xs => quoteJson k ++ kv ++ dumpsV item kv v ++ item ++ dumpsObj item kv xs

end

/-- json.dumps(x) with default separators, as used for every error return. -/
def dumpsDefault (j : JSON) : String := dumpsV ", " ": " j

/-- json.dumps(x, separators=(",", ":")), as used for the success document. -/
def dumpsCompact (j : JSON) : String := dumpsV "," ":" j

/-- The uniform error document literal json.dumps renders on failure paths. -/
def errDoc (msg : String) : JSON := jobj [("error", .str msg)]

/-! ## Python str() of a decoded JSON value

Used by _format_value_with_unit via an f-string.  Only None, numbers and
strings reach it in practice; for completeness the container cases follow
Python repr conventions (strings in containers are modelled without
quote-escaping, which no claim exercises). -/

mutual

def pyStr : JSON → String
  | .null => "None"
  | .bool true => "True"
  | .bool false => "False"
  | .num r => r
  | .str s => s
  | .arr l => "[" ++ pyReprArr l ++ "]"
  | .obj l => "\x7b" ++ pyReprObj l ++ "\x7d"

def pyRepr : JSON → String
  | .null => "None"
  | .bool true => "True"
  | .bool false => "False"
  | .num r => r
  | .str s => "'" ++ s ++ "'"
  | .arr l => "[" ++ pyReprArr l ++ "]"
  | .obj l => "\x7b" ++ pyReprObj l ++ "\x7d"

def pyReprArr : JList → String
  | .nil => ""
  | .cons x .nil => pyRepr x
  | .cons x xs => pyRepr x ++ ", " ++ pyReprArr xs

def pyReprObj : JFields → String
  | .nil => ""
  | .cons k v .nil => "'" ++ k ++ "': " ++ pyRepr v
  | .cons k v xs => "'" ++ k ++ "': " ++ pyRepr v ++ ", " ++ pyReprObj xs

end

/-! ## Datetimes

A Python datetime value as far as this program observes it: calendar fields,
microseconds, and the utcoffset in minutes (none = naive). -/

structure DT where
  y : Nat
  m : Nat
  d : Nat
  hh : Nat
  mi : Nat
  se : Nat
  us : Nat
  off : Option Int
deriving DecidableEq, Repr

def isDigitC (c : Char) : Bool := 48 ≤ c.toNat && c.toNat ≤ 57

def dval (c : Char) : Nat := c.toNat - 48

def dChar (d : Nat) : Char := Char.ofNat (48 + d % 10)

def pad2 (n : Nat) : List Char := [dChar (n / 10), dChar (n % 10)]

def pad4 (n : Nat) : List Char := pad2 (n / 100) ++ pad2 (n % 100)

def pad6 (n : Nat) : List Char :=
  pad2 (n / 10000) ++ pad2 (n / 100 % 100) ++ pad2 (n % 100)

/-- datetime.isoformat rendering of a minute-resolution utcoffset. -/
def renderOffset (o : Int) : List Char :=
  let a := o.natAbs
  (if o < 0 then '-' else '+') :: (pad2 (a / 60) ++ ':' :: pad2 (a % 60))

/-- datetime.isoformat(): date, T, time, microseconds only when nonzero,
offset only when aware. -/
def isoformatL (t : DT) : List Char :=
  pad4 t.y ++ '-' :: pad2 t.m ++ '-' :: pad2 t.d ++ 'T' :: pad2 t.hh
    ++ ':' :: pad2 t.mi ++ ':' :: pad2 t.se
    ++ (if t.us = 0 then [] else '.' :: pad6 t.us)
    ++ (match t.off with | none => [] | some o => renderOffset o)

def isoformat (t : DT) : String := String.mk (isoformatL t)

def isLeap (y : Nat) : Bool := (y % 4 = 0 && y % 100 ≠ 0) || y % 400 = 0

def daysInMonth (y m : Nat) : Nat :=
  if m = 2 then (if isLeap y then 29 else 28)
  else if m = 4 || m = 6 || m = 9 || m = 11 then 30
  else 31

/-- Day of week (0 = Sunday) by Zeller's rule, for Gregorian years ≥ 1
(all datetimes here are constructor-validated, so y ≥ 1). -/
def dow (y m d : Nat) : Nat :=
  let a := if m < 3 then 1 else 0
  let y' := y - a
  let m' := m + 12 * a - 2
  (d + y' + y' / 4 - y' / 100 + y' / 400 + 31 * m' / 12) % 7

def lastSundayMarch (y : Nat) : Nat := 31 - dow y 3 31

def lastSundayOctober (y : Nat) : Nat := 31 - dow y 10 31

/-- Europe/London at a naive local wall-clock datetime with fold=0, as
ZoneInfo resolves it: BST (+60 min) from 02:00 local on the last Sunday of
March up to (excluding) 02:00 local on the last Sunday of October; a
wall-clock in the spring gap resolves to GMT and an ambiguous autumn
wall-clock to BST, matching PEP 495 fold=0.  The current UK rule is applied
to every year (historical tzdata deviations before the 1990s are outside
the scope of this development). -/
def londonIsBST (y m d hh mi : Nat) : Bool :=
  let ms := lastSundayMarch y
  let os := lastSundayOctober y
  let key := ((m * 32 + d) * 24 + hh) * 60 + mi
  (((3 * 32 + ms) * 24 + 2) * 60 ≤ key) && (key < ((10 * 32 + os) * 24 + 2) * 60)

/-- The timezone database as far as this development needs it.  ZoneInfo
raises ZoneInfoNotFoundError for any key outside the database; the model
database carries the zones exercised by the program and its spec. -/
inductive ZoneRule where
  | utc : ZoneRule
  | london : ZoneRule
deriving DecidableEq, Repr

def zoneLookup : String → Option ZoneRule
  | "Europe/London" => some .london
  | "UTC" => some .utc
  | "Etc/UTC" => some .utc
  | _ => none

/-- utcoffset in minutes of a zone at a naive local datetime (fold=0). -/
def zoneOffset (zr : ZoneRule) (t : DT) : Int :=
  match zr with
  | .utc => 0
  | .london => if londonIsBST t.y t.m t.d t.hh t.mi then 60 else 0

/-- dt.replace(tzinfo=tz): attach the zone; the wall-clock fields are kept
and the offset later printed is the zone's offset at those fields. -/
def withZone (zr : ZoneRule) (t : DT) : DT := { t with off := some (zoneOffset zr t) }

/-! ### strptime for the four fixed formats

CPython strptime compiles each directive to a regex: %Y is exactly four
digits; %m is two digits 01..12 or one digit 1..9; %d two digits 01..31 or
one digit 1..9; %H two digits 00..23 or one digit; %M two digits 00..59 or
one digit; %S two digits 00..61 or one digit.  The matched fields then pass
through the datetime constructor, which rejects day-out-of-month, second
60/61 and year 0 with a ValueError (caught by the source, which then tries
the next format). -/

def p2 : List Char → Option (Nat × List Char)
  | a :: b :: r =>
      if isDigitC a && isDigitC b then some (10 * dval a + dval b, r) else none
  | _ => none

def p4 (l : List Char) : Option (Nat × List Char) :=
  match p2 l with
  | some (a, r) =>
      match p2 r with
      | some (b, r') => some (100 * a + b, r')
      | none => none
  | none => none

def expectC (c : Char) : List Char → Option (List Char)
  | x :: r => if x = c then some r else none
  | [] => none

def p2or1 (twoOk oneOk : Nat → Bool) : List Char → Option (Nat × List Char)
  | a :: b :: r =>
      if isDigitC a && isDigitC b && twoOk (10 * dval a + dval b) then
        some (10 * dval a + dval b, r)
      else if isDigitC a && oneOk (dval a) then some (dval a, b :: r)
      else none
  | [a] => if isDigitC a && oneOk (dval a) then some (dval a, []) else none
  | [] => none

def pMonth : List Char → Option (Nat × List Char) :=
  p2or1 (fun v => 1 ≤ v && v ≤ 12) (fun v => 1 ≤ v && v ≤ 9)

def pDay : List Char → Option (Nat × List Char) :=
  p2or1 (fun v => 1 ≤ v && v ≤ 31) (fun v => 1 ≤ v && v ≤ 9)

def pHour : List Char → Option (Nat × List Char) :=
  p2or1 (fun v => v ≤ 23) (fun _ => true)

def pMinute : List Char → Option (Nat × List Char) :=
  p2or1 (fun v => v ≤ 59) (fun _ => true)

def pSecond : List Char → Option (Nat × List Char) :=
  p2or1 (fun v => v ≤ 61) (fun _ => true)

/-- datetime.strptime against one of the four formats of the source:
date part %Y-%m-%d, separator (space or T), time %H:%M with optional :%S,
then the datetime constructor validation. -/
def fmtParse (sep : Char) (withSec : Bool) (l : List Char) : Option DT := do
  let (y, r) ← p4 l
  let r ← expectC '-' r
  let (m, r) ← pMonth r
  let r ← expectC '-' r
  let (d, r) ← pDay r
  let r ← expectC sep r
  let (hh, r) ← pHour r
  let r ← expectC ':' r
  let (mi, r) ← pMinute r
  let (se, r) ←
    if withSec then do
      let r ← expectC ':' r
      pSecond r
    else pure (0, r)
  if r = [] && 1 ≤ y && d ≤ daysInMonth y m && se ≤ 59 then
    pure { y := y, m := m, d := d, hh := hh, mi := mi, se := se, us := 0, off := none }
  else none

/-- The parse_attempts loop of _parse_datetime: the four formats in source
order, first success wins. -/
def tryFormats (l : List Char) : Option DT :=
  fmtParse ' ' true l <|> fmtParse ' ' false l <|> fmtParse 'T' true l <|> fmtParse 'T' false l

/-! ### datetime.fromisoformat (Python 3.11 semantics, the subset with
dash-separated dates and colon-separated times)

Accepted here: YYYY-MM-DD, optionally followed by any single separator
character and HH, HH:MM or HH:MM:SS, an optional fractional-second part
with one or more digits (digits beyond six truncated), and an optional
offset Z, +HH:MM or -HH:MM.  Validation matches the datetime constructor.
The basic formats without separators inside date or time, week dates and
offsets without a colon are not used by anything in this development and
are outside the model. -/

def pFrac (l : List Char) : Option (Nat × List Char) :=
  let ds := l.takeWhile isDigitC
  if ds = [] then none
  else
    let v := (ds.take 6).foldl (fun acc c => 10 * acc + dval c) 0
    some (v * 10 ^ (6 - min 6 ds.length), l.dropWhile isDigitC)

def pTimePart (r : List Char) : Option (Nat × Nat × Nat × List Char) := do
  let (hh, r) ← p2 r
  match r with
  | ':' :: rest => do
      let (mi, rest) ← p2 rest
      match rest with
      | ':' :: rest2 => do
          let (se, rest2) ← p2 rest2
          pure (hh, mi, se, rest2)
      | _ => pure (hh, mi, 0, rest)
  | _ => pure (hh, 0, 0, r)

def pFracOpt (r : List Char) : Option (Nat × List Char) :=
  match r with
  | [] => some (0, [])
  | c :: rest => if c = '.' then pFrac rest else some (0, c :: rest)

def pOffset (r : List Char) : Option (Option Int × List Char) :=
  match r with
  | [] => some (none, [])
  | c :: rest =>
      if c = 'Z' then some (some 0, rest)
      else if c = '+' then do
        let (oh, rest) ← p2 rest
        let rest ← expectC ':' rest
        let (om, rest) ← p2 rest
        if oh ≤ 23 && om ≤ 59 then pure (some ((oh * 60 + om : Nat) : Int), rest) else none
      else if c = '-' then do
        let (oh, rest) ← p2 rest
        let rest ← expectC ':' rest
        let (om, rest) ← p2 rest
        if oh ≤ 23 && om ≤ 59 then pure (some (-((oh * 60 + om : Nat) : Int)), rest) else none
      else none

def isoParse (l : List Char) : Option DT := do
  let (y, r) ← p4 l
  let r ← expectC '-' r
  let (m, r) ← p2 r
  let r ← expectC '-' r
  let (d, r) ← p2 r
  if 1 ≤ y && 1 ≤ m && m ≤ 12 && 1 ≤ d && d ≤ daysInMonth y m then
    match r with
    | [] => pure { y := y, m := m, d := d, hh := 0, mi := 0, se := 0, us := 0, off := none }
    | _ :: r => do
        let (hh, mi, se, r) ← pTimePart r
        let (us, r) ← pFracOpt r
        let (off, r) ← pOffset r
        if r = [] && hh ≤ 23 && mi ≤ 59 && se ≤ 59 then
          pure { y := y, m := m, d := d, hh := hh, mi := mi, se := se, us := us, off := off }
        else none
  else none

/-! ### The normalizer _parse_datetime -/

def isSpaceC (c : Char) : Bool :=
  c = ' ' || c = '\t' || c = '\n' || c = '\r' || c = Char.ofNat 11 || c = Char.ofNat 12

/-- The preprocessing s = dt_value.replace(",", "").strip(). -/
def cleanL (l : List Char) : List Char :=
  (((l.filter (fun c => c ≠ ',')).dropWhile isSpaceC).reverse.dropWhile isSpaceC).reverse

/-- _parse_datetime on a string argument.  The empty-string guard returns
the value before the timezone is even constructed; a nonempty string first
constructs ZoneInfo(tz_name), whose failure is an uncaught raise (the
Except.error channel) because that construction sits outside every try of
the source; then the four fixed formats in order; then fromisoformat with
the configured zone attached only when the parsed value is naive; on total
parse failure the ORIGINAL string (not the cleaned intermediate) comes
back. -/
def parse_datetime_str (s : String) (tzName : String) : Except String String :=
  if s = "" then .ok s
  else
    match zoneLookup tzName with
    | none => .error ("ZoneInfoNotFoundError: No time zone found with key " ++ tzName)
    | some zr =>
      let c := cleanL s.data
      match tryFormats c with
      | some t => .ok (isoformat (withZone zr t))
      | none =>
        match isoParse c with
        | some t => .ok (isoformat (if t.off.isNone then withZone zr t else t))
        | none => .ok s

/-- _parse_datetime on an arbitrary value: non-string values (and None)
come back unchanged by the isinstance guard. -/
def parse_datetime (v : JSON) (tzName : String) : Except String JSON :=
  match v with
  | .str s => (parse_datetime_str s tzName).map JSON.str
  | other => .ok other

/-! ## Forecast localization (_localize_forecast_times) -/

/-- The four datetime-like keys the source rewrites, in source order. -/
def datetimeKeys : List String := ["datetime", "time", "datetime_utc", "timestamp"]

/-- Python needle in haystack for strings. -/
def containsSubstr (hay needle : List Char) : Bool :=
  decide (needle <:+: hay)

/-- Python key in value followed by the subscript/isinstance of the loop
body, for one key of one forecast entry.  A dict entry rewrites a present
string value through _parse_datetime (item assignment keeps dict order);
the in operator on a string or list entry is a membership test whose True
branch then raises a TypeError at the subscript; on other types the in
operator itself raises a TypeError.  All these raises are uncaught. -/
def localizeKey (tzName k : String) (e : JSON) : Except String JSON :=
  match e with
  | .obj fs =>
      match dictGet? fs.toList k with
      | some (.str s) => do
          let s' ← parse_datetime_str s tzName
          pure (.obj (JFields.ofList (dictSet fs.toList k (.str s'))))
      | _ => pure (.obj fs)
  | .str s =>
      if containsSubstr s.data k.data then
        .error "TypeError: string indices must be integers"
      else pure (.str s)
  | .arr l =>
      if l.toList.any (fun x => match x with | .str s => s = k | _ => false) then
        .error "TypeError: list indices must be integers"
      else pure (.arr l)
  | other => .error ("TypeError: argument of type '" ++ typeName other ++ "' is not iterable")

/-- The inner loop over the four datetime-like keys for one entry. -/
def localizeEntry (tzName : String) (e : JSON) : Except String JSON := do
  let e ← localizeKey tzName "datetime" e
  let e ← localizeKey tzName "time" e
  let e ← localizeKey tzName "datetime_utc" e
  let e ← localizeKey tzName "timestamp" e
  pure e

def mapExcept (f : α → Except ε β) : List α → Except ε (List β)
  | [] => .ok []
  | x :: xs => do
      let y ← f x
      let ys ← mapExcept f xs
      pure (y :: ys)

/-- _localize_forecast_times: a non-list argument is returned unchanged by
the isinstance guard; a list has each entry processed in order (the source
mutates in place and returns the same list). -/
def localize_forecast_times (v : JSON) (tzName : String) : Except String JSON :=
  match v with
  | .arr l => (mapExcept (localizeEntry tzName) l.toList).map (fun l' => .arr (JList.ofList l'))
  | other => .ok other

/-! ## Value formatting (_format_value_with_unit) -/

/-- _format_value_with_unit: None stays None, anything else is rendered by
an f-string as str(value) + unit.  (The except branch of the source is dead
for every value the program can hold and is not modelled.) -/
def format_value_with_unit (value : JSON) (unit : String) : Option String :=
  match value with
  | .null => none
  | v => some (pyStr v ++ unit)

def jsonOfOptStr : Option String → JSON
  | none => .null
  | some s => .str s

/-! ## Configuration (class Valves) -/

structure Valves where
  HA_URL : String := "https://my-home-assistant.local:8123"
  HA_API_TOKEN : String := ""
  HA_HOURLY_FORECAST_SENSOR_NAME : String := ""
  HA_DAILY_FORECAST_SENSOR_NAME : String := ""
  HA_CURRENT_SENSOR_NAME : String := ""
  HA_RANGE_SENSOR_NAME : String := ""
  HA_CURRENT_DATE_TIME_SENSOR_NAME : String := ""
  HA_TIMEZONE : String := "Europe/London"
  HA_LOCATION : String := "96 Pooley View, Polesworth, Warwickshire, UK"
  HA_TEMPERATURE_UNIT : String := "°C"
  HA_HUMIDITY_UNIT : String := "%"
  HA_PRESSURE_UNIT : String := "hPa"

/-- HA_URL.rstrip(sl) for the slash character: drop every trailing slash. -/
def rstripSlash (s : String) : String :=
  String.mk ((s.data.reverse.dropWhile (fun c => c = '/')).reverse)

/-- _get_sensor_url. -/
def get_sensor_url (v : Valves) (sensorName : String) : String :=
  rstripSlash v.HA_URL ++ "/api/states/" ++ sensorName

/-! ## Networking (_fetch_sensor_data_async)

One HTTP exchange is abstracted as its observable outcome: a transport
exception with a message, or a response with a status code and a body that
either decodes to JSON or fails to.  The function itself is synchronous in
the model; asyncio.gather returns results in task-submission order, so the
flattening loses nothing the program can observe. -/

inductive HttpResult where
  | exn (msg : String) : HttpResult
  | resp (status : Nat) (body : Except String JSON) : HttpResult

def fetch_sensor_data (r : HttpResult) (sensorName : String) :
    Option JSON × Option String :=
  match r with
  | .exn e => (none, some ("Network error fetching '" ++ sensorName ++ "': " ++ e))
  | .resp status body =>
      if status ≠ 200 then
        (none, some ("Sensor '" ++ sensorName ++ "' not found or API error (status "
          ++ toString status ++ ")."))
      else
        match body with
        | .error e => (none, some ("Invalid JSON from sensor '" ++ sensorName ++ "': " ++ e))
        | .ok j => (some j, none)

/-! ## Orchestration (get_current_weather_forecast_async) -/

/-- The sensor_names dict of the source, an insertion-ordered key/valve
association. -/
def sensor_names (v : Valves) : List (String × String) :=
  [("hourly_forecast", v.HA_HOURLY_FORECAST_SENSOR_NAME),
   ("daily_forecast", v.HA_DAILY_FORECAST_SENSOR_NAME),
   ("current", v.HA_CURRENT_SENSOR_NAME),
   ("current_range", v.HA_RANGE_SENSOR_NAME),
   ("current_date_time", v.HA_CURRENT_DATE_TIME_SENSOR_NAME)]

def joinCommaSpace : List String → String
  | [] => ""
  | [x] => x
  | x :: xs => x ++ ", " ++ joinCommaSpace xs

/-- The result-collection loop: scan (key, fetch result) pairs in order and
stop at the first error; otherwise keep the decoded documents keyed in
order. -/
def collectResults : List (String × (Option JSON × Option String)) →
    Except String (List (String × JSON))
  | [] => .ok []
  | (k, (d, err)) :: rest =>
      match err with
      | some e => .error e
      | none => do
          let tl ← collectResults rest
          pure ((k, d.getD .null) :: tl)

/-- data[k]: a KeyError (message is the repr of the key) if absent; always
present in practice. -/
def dataGet (data : List (String × JSON)) (k : String) : Except String JSON :=
  match dictGet? data k with
  | some v => .ok v
  | none => .error ("'" ++ k ++ "'")

/-- x.get(key, default): an AttributeError unless the receiver is a dict. -/
def pyGet (o : JSON) (k : String) (dflt : JSON) : Except String JSON :=
  match o with
  | .obj fs => .ok ((dictGet? fs.toList k).getD dflt)
  | other => .error ("'" ++ typeName other ++ "' object has no attribute 'get'")

/-- x or y for decoded JSON values. -/
def pyOr (x y : JSON) : JSON := if truthy x then x else y

/-- The extraction block of the source (lines inside the try), in source
evaluation order; the Except.error channel is the caught exception whose
str() lands in the error document. -/
def extractAttributes (data : List (String × JSON)) :
    Except String (JSON × JSON × JSON × JSON × JSON) := do
  let hb ← dataGet data "hourly_forecast"
  let ha ← pyGet hb "attributes" (jobj [])
  let hourly ← pyGet (pyOr ha (jobj [])) "forecast" (jarr [])
  let db ← dataGet data "daily_forecast"
  let da ← pyGet db "attributes" (jobj [])
  let daily ← pyGet (pyOr da (jobj [])) "forecast" (jarr [])
  let cb ← dataGet data "current"
  let ca ← pyGet cb "attributes" (jobj [])
  let current := pyOr ca (jobj [])
  let rb ← dataGet data "current_range"
  let ra ← pyGet rb "attributes" (jobj [])
  let currentRange := pyOr ra (jobj [])
  let cdtb ← dataGet data "current_date_time"
  let st ← pyGet cdtb "state" .null
  pure (hourly, daily, current, currentRange, st)

/-- The result dict literal of the source; the .get calls on the current
and range attribute values happen in source order and raise (uncaught) on a
truthy non-dict receiver. -/
def assembleResult (v : Valves) (currentDateTime : JSON) (current currentRange : JSON)
    (hourly daily : JSON) : Except String JSON := do
  let t1 ← pyGet current "temperature" .null
  let t2 ← pyGet currentRange "max_temperature" .null
  let t3 ← pyGet currentRange "min_temperature" .null
  let h1 ← pyGet current "humidity" .null
  let h2 ← pyGet currentRange "max_humidity" .null
  let h3 ← pyGet currentRange "min_humidity" .null
  let p1 ← pyGet current "pressure" .null
  let p2' ← pyGet currentRange "max_pressure" .null
  let p3 ← pyGet currentRange "min_pressure" .null
  let lx ← pyGet current "lx" .null
  pure (jobj
    [("current_date_time", currentDateTime),
     ("current_timezone", .str v.HA_TIMEZONE),
     ("current_location", .str v.HA_LOCATION),
     ("current_weather", jobj
       [("temperatures", jobj
         [("current_temperature", jsonOfOptStr (format_value_with_unit t1 v.HA_TEMPERATURE_UNIT)),
          ("temperature_high", jsonOfOptStr (format_value_with_unit t2 v.HA_TEMPERATURE_UNIT)),
          ("temperature_low", jsonOfOptStr (format_value_with_unit t3 v.HA_TEMPERATURE_UNIT))]),
        ("humidities", jobj
         [("humidity", jsonOfOptStr (format_value_with_unit h1 v.HA_HUMIDITY_UNIT)),
          ("humidity_high", jsonOfOptStr (format_value_with_unit h2 v.HA_HUMIDITY_UNIT)),
          ("humidity_low", jsonOfOptStr (format_value_with_unit h3 v.HA_HUMIDITY_UNIT))]),
        ("pressures", jobj
         [("pressure", jsonOfOptStr (format_value_with_unit p1 v.HA_PRESSURE_UNIT)),
          ("pressure_high", jsonOfOptStr (format_value_with_unit p2' v.HA_PRESSURE_UNIT)),
          ("pressure_low", jsonOfOptStr (format_value_with_unit p3 v.HA_PRESSURE_UNIT))]),
        ("lux", lx)]),
     ("weather_forecasts", jobj
       [("hourly_forecast", hourly),
        ("daily_forecast", daily)])])

/-- Everything after the results have been collected into the data dict:
extraction, datetime parsing, localization, the non-empty checks and the
assembly.  Except.ok is the string the operation returns (a success or
error document); Except.error is an uncaught Python exception. -/
def processData (v : Valves) (data : List (String × JSON)) : Except String String :=
  match extractAttributes data with
  | .error e => .ok (dumpsDefault (errDoc ("Error extracting attributes: " ++ e)))
  | .ok (hourly, daily, current, currentRange, st) => do
      let currentDateTime ←
        if truthy st then parse_datetime st v.HA_TIMEZONE else pure st
      let hourlyL ← localize_forecast_times hourly v.HA_TIMEZONE
      let dailyL ← localize_forecast_times daily v.HA_TIMEZONE
      if !truthy hourlyL then
        pure (dumpsDefault (errDoc "No hourly forecast data available."))
      else if !truthy dailyL then
        pure (dumpsDefault (errDoc "No daily forecast data available."))
      else do
        let doc ← assembleResult v currentDateTime current currentRange hourlyL dailyL
        pure (dumpsCompact doc)

/-- The public operation.  The network is an oracle from sensor name to
HTTP outcome (asyncio.gather keeps task order, so concurrent completion
order is unobservable).  The first component is the returned string
(Except.error = an uncaught Python exception); the second is the list of
request URLs issued, empty when validation short-circuits before the tasks
are built. -/
def get_current_weather_forecast (v : Valves) (net : String → HttpResult) :
    Except String String × List String :=
  if v.HA_URL = "" then
    (.ok (dumpsDefault (errDoc "HA_URL is not set.")), [])
  else if v.HA_API_TOKEN = "" then
    (.ok (dumpsDefault (errDoc "HA_API_TOKEN is not set.")), [])
  else
    let names := sensor_names v
    let missing := (names.filter (fun kn => kn.2 = "")).map (fun kn => kn.1)
    if missing ≠ [] then
      (.ok (dumpsDefault (errDoc ("Sensor name(s) not set for: " ++ joinCommaSpace missing))), [])
    else
      let urls := names.map (fun kn => get_sensor_url v kn.2)
      let results := names.map (fun kn => (kn.1, fetch_sensor_data (net kn.2) kn.2))
      match collectResults results with
      | .error e => (.ok (dumpsDefault (errDoc e)), urls)
      | .ok data => (processData v data, urls)

/-! ## Derived forms used by the theorem statements -/

/-- The value _parse_datetime returns for a nonempty string when the
configured timezone resolves (the zone-resolvable slice of
parse_datetime_str). -/
def parseResult (zr : ZoneRule) (s : String) : String :=
  if s = "" then s
  else
    match tryFormats (cleanL s.data) with
    | some t => isoformat (withZone zr t)
    | none =>
      match isoParse (cleanL s.data) with
      | some t => isoformat (if t.off.isNone then withZone zr t else t)
      | none => s

theorem parse_datetime_str_of_zone (s tz : String) (zr : ZoneRule)
    (hz : zoneLookup tz = some zr) :
    parse_datetime_str s tz = .ok (parseResult zr s) := by
  unfold parse_datetime_str parseResult
  by_cases hs : s = ""
  · simp [hs]
  · simp only [hs, if_false, hz]
    cases htf : tryFormats (cleanL s.data) with
    | some t => rfl
    | none =>
        cases hti : isoParse (cleanL s.data) with
        | some t => rfl
        | none => rfl

/-! ## Claim C5 -/

/-- C5: with a nonempty hub URL, an empty API token makes the operation
return exactly the serialized HA_API_TOKEN error document with an empty
request log (zero HTTP requests), whatever the network would have answered;
and with URL and token nonempty, any empty sensor identifiers make it
return the error document naming exactly the missing role keys in fixed
order, again with zero HTTP requests. -/
theorem C5_empty_config_errors_without_requests (v : Valves) (net : String → HttpResult) :
    (v.HA_URL ≠ "" → v.HA_API_TOKEN = "" →
      get_current_weather_forecast v net =
        (.ok (dumpsDefault (errDoc "HA_API_TOKEN is not set.")), [])) ∧
    (v.HA_URL ≠ "" → v.HA_API_TOKEN ≠ "" →
      ((sensor_names v).filter (fun kn => kn.2 = "")).map (fun kn => kn.1) ≠ [] →
      get_current_weather_forecast v net =
        (.ok (dumpsDefault (errDoc ("Sensor name(s) not set for: " ++
          joinCommaSpace (((sensor_names v).filter (fun kn => kn.2 = "")).map (fun kn => kn.1))))),
         [])) := by
  constructor
  · intro hurl htok
    unfold get_current_weather_forecast
    simp [hurl, htok]
  · intro hurl htok hmiss
    unfold get_current_weather_forecast
    simp only [hurl, htok, if_false, if_neg hurl, if_neg htok]
    rw [if_pos]
    exact hmiss

theorem C5_witness :
    ({} : Valves).HA_URL ≠ "" ∧ ({} : Valves).HA_API_TOKEN = "" ∧
    get_current_weather_forecast {} (fun _ => .exn "down") =
      (.ok "\x7b\"error\": \"HA_API_TOKEN is not set.\"\x7d", []) ∧
    get_current_weather_forecast
      { HA_API_TOKEN := "t", HA_DAILY_FORECAST_SENSOR_NAME := "sensor.daily" }
      (fun _ => .exn "down") =
      (.ok "\x7b\"error\": \"Sensor name(s) not set for: hourly_forecast, current, current_range, current_date_time\"\x7d",
       []) := by
  refine ⟨by decide, rfl, ?_, ?_⟩
  · exact (C5_empty_config_errors_without_requests {} (fun _ => .exn "down")).1 (by decide) rfl
  · exact (C5_empty_config_errors_without_requests
      { HA_API_TOKEN := "t", HA_DAILY_FORECAST_SENSOR_NAME := "sensor.daily" }
      (fun _ => .exn "down")).2 (by decide) (by decide) (by decide)

/-! ## Claim C8 -/

/-- C8: under a resolvable configured timezone, a string that matches none
of the four fixed formats and also fails the ISO-8601 fallback comes back
as the original input string, unmodified (not the comma-stripped or trimmed
intermediate), with no exception raised. -/
theorem C8_total_parse_failure_returns_original (s tz : String) (zr : ZoneRule)
    (hz : zoneLookup tz = some zr)
    (hf : tryFormats (cleanL s.data) = none)
    (hi : isoParse (cleanL s.data) = none) :
    parse_datetime_str s tz = .ok s := by
  rw [parse_datetime_str_of_zone s tz zr hz]
  unfold parseResult
  by_cases hs : s = ""
  · simp [hs]
  · simp [hs, hf, hi]

theorem C8_witness :
    tryFormats (cleanL ("not-a-date").data) = none ∧
    isoParse (cleanL ("not-a-date").data) = none ∧
    parse_datetime_str "not-a-date" "Europe/London" = .ok "not-a-date" ∧
    parse_datetime_str " 20,24 " "Europe/London" = .ok " 20,24 " :=
  ⟨rfl, rfl,
   C8_total_parse_failure_returns_original "not-a-date" "Europe/London" .london rfl rfl rfl,
   C8_total_parse_failure_returns_original " 20,24 " "Europe/London" .london rfl rfl rfl⟩

/-! ## Claim C6 -/

/-- C6: under a resolvable configured timezone, a naive string matching one
of the four fixed formats normalizes to the ISO rendering of exactly the
parsed wall-clock fields with the zone's offset for that local datetime
attached (a label attachment: no shift of the clock value); and a string
that parses only through the ISO fallback and already carries an offset
keeps that offset verbatim, the configured zone not being reapplied. -/
theorem C6_attach_offset_without_conversion (s tz : String) (zr : ZoneRule)
    (hz : zoneLookup tz = some zr) :
    (∀ t : DT, tryFormats (cleanL s.data) = some t →
      parse_datetime_str s tz =
        .ok (isoformat { t with off := some (zoneOffset zr t) })) ∧
    (∀ t : DT, tryFormats (cleanL s.data) = none → isoParse (cleanL s.data) = some t →
      t.off.isSome →
      parse_datetime_str s tz = .ok (isoformat t)) := by
  constructor
  · intro t ht
    have hs : s ≠ "" := by
      intro h
      rw [h, show tryFormats (cleanL ("").data) = none from rfl] at ht
      exact Option.noConfusion ht
    unfold parse_datetime_str
    simp [hs, hz, ht, withZone]
  · intro t htf hti hoff
    have hs : s ≠ "" := by
      intro h
      rw [h, show isoParse (cleanL ("").data) = none from rfl] at hti
      exact Option.noConfusion hti
    obtain ⟨o, ho⟩ := Option.isSome_iff_exists.mp hoff
    unfold parse_datetime_str
    simp [hs, hz, htf, hti, ho]

theorem C6_witness :
    tryFormats (cleanL ("2024-03-05 14:30").data) =
      some { y := 2024, m := 3, d := 5, hh := 14, mi := 30, se := 0, us := 0, off := none } ∧
    parse_datetime_str "2024-03-05 14:30" "Europe/London" = .ok "2024-03-05T14:30:00+00:00" ∧
    parse_datetime_str "2024-07-05 14:30" "Europe/London" = .ok "2024-07-05T14:30:00+01:00" ∧
    parse_datetime_str "2024-03-05T14:30+02:00" "Europe/London" = .ok "2024-03-05T14:30:00+02:00" := by
  refine ⟨rfl, ?_, ?_, ?_⟩
  · exact (C6_attach_offset_without_conversion "2024-03-05 14:30" "Europe/London" .london rfl).1
      { y := 2024, m := 3, d := 5, hh := 14, mi := 30, se := 0, us := 0, off := none } rfl
  · exact (C6_attach_offset_without_conversion "2024-07-05 14:30" "Europe/London" .london rfl).1
      { y := 2024, m := 7, d := 5, hh := 14, mi := 30, se := 0, us := 0, off := none } rfl
  · exact (C6_attach_offset_without_conversion "2024-03-05T14:30+02:00" "Europe/London" .london rfl).2
      { y := 2024, m := 3, d := 5, hh := 14, mi := 30, se := 0, us := 0, off := some 120 } rfl rfl rfl

/-! ## Claim C3 -/

/-- C3: with a fully-populated configuration, the operation returns the
error document of the first failing fetch in the fixed key order
hourly_forecast, daily_forecast, current, current_range, current_date_time
(the collection scan is over asyncio.gather results, which keep task order,
so concurrent completion order cannot influence the choice), with the other
outcomes unconstrained; and a non-200 status makes a fetch fail with the
message naming that sensor and the status code, by one formula uniform over
all non-200 statuses (404 is not distinguished). -/
theorem C3_first_error_in_fixed_order (v : Valves) (net : String → HttpResult) (e : String)
    (hurl : v.HA_URL ≠ "") (htok : v.HA_API_TOKEN ≠ "")
    (hnames : ∀ kn ∈ sensor_names v, kn.2 ≠ "") :
    (collectResults ((sensor_names v).map
        (fun kn => (kn.1, fetch_sensor_data (net kn.2) kn.2))) = .error e →
      get_current_weather_forecast v net =
        (.ok (dumpsDefault (errDoc e)),
         (sensor_names v).map (fun kn => get_sensor_url v kn.2))) ∧
    (∀ (pre post : List (String × (Option JSON × Option String))) (k : String)
        (dta : Option JSON),
      (∀ p ∈ pre, p.2.2 = none) →
      collectResults (pre ++ (k, (dta, some e)) :: post) = .error e) ∧
    (∀ (name : String) (status : Nat) (body : Except String JSON), status ≠ 200 →
      (fetch_sensor_data (.resp status body) name).2 =
        some ("Sensor '" ++ name ++ "' not found or API error (status "
          ++ toString status ++ ").")) := by
  refine ⟨?_, ?_, ?_⟩
  · intro hcol
    have hm : (sensor_names v).filter (fun kn => kn.2 = "") = [] := by
      rw [List.filter_eq_nil_iff]
      intro kn hkn
      simpa using hnames kn hkn
    unfold get_current_weather_forecast
    simp [hurl, htok, hm, hcol]
  · intro pre post k dta hpre
    induction pre with
    | nil => simp [collectResults]
    | cons p rest ih =>
        obtain ⟨k0, d0, e0⟩ := p
        have h0 : e0 = none := hpre (k0, d0, e0) (List.mem_cons_self _ _)
        subst h0
        have ih' := ih (fun q hq => hpre q (List.mem_cons_of_mem _ hq))
        simp [collectResults, ih']
  · intro name status body hst
    simp [fetch_sensor_data, hst]

theorem C3_witness :
    get_current_weather_forecast
      { HA_API_TOKEN := "t"
        HA_HOURLY_FORECAST_SENSOR_NAME := "s.h"
        HA_DAILY_FORECAST_SENSOR_NAME := "s.d"
        HA_CURRENT_SENSOR_NAME := "s.c"
        HA_RANGE_SENSOR_NAME := "s.r"
        HA_CURRENT_DATE_TIME_SENSOR_NAME := "s.t" }
      (fun n =>
        if n = "s.d" then .resp 404 (.error "no body")
        else if n = "s.c" then .exn "connection reset"
        else .resp 200 (.ok (jobj []))) =
      (.ok "\x7b\"error\": \"Sensor 's.d' not found or API error (status 404).\"\x7d",
       ["https://my-home-assistant.local:8123/api/states/s.h",
        "https://my-home-assistant.local:8123/api/states/s.d",
        "https://my-home-assistant.local:8123/api/states/s.c",
        "https://my-home-assistant.local:8123/api/states/s.r",
        "https://my-home-assistant.local:8123/api/states/s.t"]) ∧
    (fetch_sensor_data (.resp 404 (.error "no body")) "s.d").2 =
      some "Sensor 's.d' not found or API error (status 404)." := by
  constructor
  · exact (C3_first_error_in_fixed_order
      { HA_API_TOKEN := "t"
        HA_HOURLY_FORECAST_SENSOR_NAME := "s.h"
        HA_DAILY_FORECAST_SENSOR_NAME := "s.d"
        HA_CURRENT_SENSOR_NAME := "s.c"
        HA_RANGE_SENSOR_NAME := "s.r"
        HA_CURRENT_DATE_TIME_SENSOR_NAME := "s.t" }
      (fun n =>
        if n = "s.d" then .resp 404 (.error "no body")
        else if n = "s.c" then .exn "connection reset"
        else .resp 200 (.ok (jobj [])))
      "Sensor 's.d' not found or API error (status 404)."
      (by decide) (by decide) (by decide)).1 rfl
  · exact (C3_first_error_in_fixed_order
      { HA_API_TOKEN := "t"
        HA_HOURLY_FORECAST_SENSOR_NAME := "s.h"
        HA_DAILY_FORECAST_SENSOR_NAME := "s.d"
        HA_CURRENT_SENSOR_NAME := "s.c"
        HA_RANGE_SENSOR_NAME := "s.r"
        HA_CURRENT_DATE_TIME_SENSOR_NAME := "s.t" }
      (fun n =>
        if n = "s.d" then .resp 404 (.error "no body")
        else if n = "s.c" then .exn "connection reset"
        else .resp 200 (.ok (jobj [])))
      "Sensor 's.d' not found or API error (status 404)."
      (by decide) (by decide) (by decide)).2.2 "s.d" 404 (.error "no body") (by decide)

/-! ## Claim C1 -/

/-- A fully-populated configuration except that the timezone names no known
IANA zone. -/
def valvesBadTz : Valves :=
  { HA_API_TOKEN := "token"
    HA_HOURLY_FORECAST_SENSOR_NAME := "sensor.h"
    HA_DAILY_FORECAST_SENSOR_NAME := "sensor.d"
    HA_CURRENT_SENSOR_NAME := "sensor.c"
    HA_RANGE_SENSOR_NAME := "sensor.r"
    HA_CURRENT_DATE_TIME_SENSOR_NAME := "sensor.t"
    HA_TIMEZONE := "Not/A_Zone" }

/-- All five sensors answer 200 with well-formed bodies; the
current-date-time sensor carries a parseable datetime state. -/
def netAllOk : String → HttpResult := fun name =>
  if name = "sensor.t" then .resp 200 (.ok (jobj [("state", .str "2024-03-05 14:30")]))
  else .resp 200 (.ok (jobj [("attributes", jobj [("forecast", jarr [jobj []])])]))

/-- C1 exhibit: the claim promises a string return even when the configured
timezone is not a valid IANA zone, but on this input — a fully-populated
configuration whose timezone is the unknown name Not/A_Zone and all five
fetches succeeding — the operation raises instead of returning: ZoneInfo is
constructed in _parse_datetime outside every try block, so the
ZoneInfoNotFoundError escapes the public operation (the Except.error
channel of the model). -/
theorem C1_invalid_timezone_raise_escapes :
    get_current_weather_forecast valvesBadTz netAllOk =
      (.error "ZoneInfoNotFoundError: No time zone found with key Not/A_Zone",
       ["https://my-home-assistant.local:8123/api/states/sensor.h",
        "https://my-home-assistant.local:8123/api/states/sensor.d",
        "https://my-home-assistant.local:8123/api/states/sensor.c",
        "https://my-home-assistant.local:8123/api/states/sensor.r",
        "https://my-home-assistant.local:8123/api/states/sensor.t"]) := rfl

theorem bindOk {ε α β : Type} (a : α) (f : α → Except ε β) :
    (Except.ok a >>= f : Except ε β) = f a := rfl

theorem pureOk {ε α : Type} (a : α) : (pure a : Except ε α) = Except.ok a := rfl

theorem truthy_jarr_nil : truthy (jarr []) = false := rfl

theorem truthy_jarr_cons (x : JSON) (xs : List JSON) : truthy (jarr (x :: xs)) = true := rfl

/-! ## Characterizing forecast localization on dict entries -/

/-- The effect of the loop body for one key on one field of a dict entry. -/
def localizeStep (zr : ZoneRule) (k : String) (p : String × JSON) : String × JSON :=
  if p.1 = k then
    match p.2 with
    | .str s => (p.1, .str (parseResult zr s))
    | _ => p
  else p

/-- The effect of the whole inner loop on one field of a dict entry: only a
string value at one of the four datetime-like keys is rewritten. -/
def localizeField (zr : ZoneRule) (p : String × JSON) : String × JSON :=
  if p.1 ∈ datetimeKeys then
    match p.2 with
    | .str s => (p.1, .str (parseResult zr s))
    | _ => p
  else p

theorem localizeStep_fst (zr : ZoneRule) (k : String) (p : String × JSON) :
    (localizeStep zr k p).1 = p.1 := by
  unfold localizeStep
  by_cases h : p.1 = k
  · cases p.2 <;> simp [h]
  · simp [h]

theorem dictGet?_cons (a : String) (b : JSON) (tl : List (String × JSON)) (k : String) :
    dictGet? ((a, b) :: tl) k = if a = k then some b else dictGet? tl k := by
  by_cases h : a = k <;> simp [dictGet?, List.find?, h]

theorem dictSet_cons (a : String) (b : JSON) (tl : List (String × JSON)) (k : String)
    (v : JSON) :
    dictSet ((a, b) :: tl) k v =
      (if a = k then (a, v) else (a, b)) :: dictSet tl k v := by
  by_cases h : a = k <;> simp [dictSet, h]

theorem dictSet_of_forall_ne (fs : List (String × JSON)) (k : String) (v : JSON)
    (h : ∀ p ∈ fs, p.1 ≠ k) : dictSet fs k v = fs := by
  induction fs with
  | nil => rfl
  | cons p tl ih =>
      obtain ⟨a, b⟩ := p
      have ha : a ≠ k := h (a, b) (List.mem_cons_self _ _)
      rw [dictSet_cons, if_neg ha, ih (fun q hq => h q (List.mem_cons_of_mem _ hq))]

theorem map_localizeStep_of_forall_ne (zr : ZoneRule) (k : String)
    (fs : List (String × JSON)) (h : ∀ p ∈ fs, p.1 ≠ k) :
    fs.map (localizeStep zr k) = fs := by
  induction fs with
  | nil => rfl
  | cons p tl ih =>
      have ha : p.1 ≠ k := h p (List.mem_cons_self _ _)
      simp only [List.map_cons, localizeStep, if_neg ha]
      rw [ih (fun q hq => h q (List.mem_cons_of_mem _ hq))]

theorem not_mem_keys_forall (k : String) (fs : List (String × JSON))
    (h : k ∉ fs.map Prod.fst) : ∀ p ∈ fs, p.1 ≠ k := by
  intro p hp hk
  exact h (List.mem_map.mpr ⟨p, hp, hk⟩)

/-- Under unique keys (a Python dict), the find-then-set of the loop body
equals a pointwise map over the fields. -/
theorem map_localizeStep_eq (zr : ZoneRule) (k : String) (fs : List (String × JSON))
    (hnd : (fs.map Prod.fst).Nodup) :
    fs.map (localizeStep zr k) =
      (match dictGet? fs k with
       | some (.str s) => dictSet fs k (.str (parseResult zr s))
       | _ => fs) := by
  induction fs with
  | nil => rfl
  | cons p tl ih =>
      obtain ⟨a, b⟩ := p
      rw [List.map_cons, List.nodup_cons] at hnd
      obtain ⟨hout, hnd'⟩ := hnd
      by_cases hak : a = k
      · subst hak
        have htl1 : tl.map (localizeStep zr a) = tl :=
          map_localizeStep_of_forall_ne zr a tl (not_mem_keys_forall a tl hout)
        have htl2 : ∀ v, dictSet tl a v = tl :=
          fun v => dictSet_of_forall_ne tl a v (not_mem_keys_forall a tl hout)
        cases b <;>
          simp [List.map_cons, localizeStep, dictGet?_cons, dictSet_cons, htl1, htl2]
      · have hh : localizeStep zr k (a, b) = (a, b) := by
          simp [localizeStep, hak]
        rw [List.map_cons, hh, dictGet?_cons, if_neg hak, ih hnd']
        cases hg : dictGet? tl k with
        | none => simp
        | some v =>
            cases v <;> simp [dictSet_cons, if_neg hak]

theorem localizeKey_obj (tz : String) (zr : ZoneRule) (hz : zoneLookup tz = some zr)
    (k : String) (fs : List (String × JSON)) (hnd : (fs.map Prod.fst).Nodup) :
    localizeKey tz k (.obj (JFields.ofList fs)) =
      .ok (.obj (JFields.ofList (fs.map (localizeStep zr k)))) := by
  simp only [localizeKey]
  rw [JFields.toList_ofPairs, map_localizeStep_eq zr k fs hnd]
  cases hg : dictGet? fs k with
  | none => rfl
  | some v =>
      cases v <;>
        first
          | rfl
          | simp [parse_datetime_str_of_zone _ tz zr hz, bindOk, pure, Except.pure]

theorem map_fst_localizeStep (zr : ZoneRule) (k : String) (fs : List (String × JSON)) :
    (fs.map (localizeStep zr k)).map Prod.fst = fs.map Prod.fst := by
  rw [List.map_map]
  exact List.map_congr_left (fun p _ => localizeStep_fst zr k p)

/-- The four key passes compose into the single pointwise field rewrite. -/
theorem localizeStep_compose (zr : ZoneRule) (p : String × JSON) :
    localizeStep zr "timestamp" (localizeStep zr "datetime_utc"
      (localizeStep zr "time" (localizeStep zr "datetime" p))) = localizeField zr p := by
  obtain ⟨a, b⟩ := p
  by_cases h1 : a = "datetime"
  · subst h1; cases b <;> rfl
  by_cases h2 : a = "time"
  · subst h2; cases b <;> rfl
  by_cases h3 : a = "datetime_utc"
  · subst h3; cases b <;> rfl
  by_cases h4 : a = "timestamp"
  · subst h4; cases b <;> rfl
  have hmem : a ∉ datetimeKeys := by simp [datetimeKeys, h1, h2, h3, h4]
  simp [localizeStep, localizeField, h1, h2, h3, h4, hmem]

theorem localizeEntry_obj (tz : String) (zr : ZoneRule) (hz : zoneLookup tz = some zr)
    (fs : List (String × JSON)) (hnd : (fs.map Prod.fst).Nodup) :
    localizeEntry tz (.obj (JFields.ofList fs)) =
      .ok (.obj (JFields.ofList (fs.map (localizeField zr)))) := by
  have hnd1 : ((fs.map (localizeStep zr "datetime")).map Prod.fst).Nodup := by
    rw [map_fst_localizeStep]; exact hnd
  have hnd2 : (((fs.map (localizeStep zr "datetime")).map (localizeStep zr "time")).map
      Prod.fst).Nodup := by
    rw [map_fst_localizeStep, map_fst_localizeStep]; exact hnd
  have hnd3 : ((((fs.map (localizeStep zr "datetime")).map (localizeStep zr "time")).map
      (localizeStep zr "datetime_utc")).map Prod.fst).Nodup := by
    rw [map_fst_localizeStep, map_fst_localizeStep, map_fst_localizeStep]; exact hnd
  unfold localizeEntry
  rw [localizeKey_obj tz zr hz "datetime" fs hnd]
  rw [bindOk]
  rw [localizeKey_obj tz zr hz "time" _ hnd1]
  rw [bindOk]
  rw [localizeKey_obj tz zr hz "datetime_utc" _ hnd2]
  rw [bindOk]
  rw [localizeKey_obj tz zr hz "timestamp" _ hnd3]
  rw [bindOk]
  simp only [List.map_map]
  rw [show (localizeStep zr "timestamp" ∘ localizeStep zr "datetime_utc" ∘
      localizeStep zr "time" ∘ localizeStep zr "datetime") = localizeField zr from
    funext (fun p => localizeStep_compose zr p)]
  rfl

theorem mapExcept_ok_of_forall {α β : Type} {ε : Type} (f : α → Except ε β) (g : α → β)
    (l : List α) (h : ∀ x ∈ l, f x = .ok (g x)) : mapExcept f l = .ok (l.map g) := by
  induction l with
  | nil => rfl
  | cons x xs ih =>
      simp only [mapExcept, h x (List.mem_cons_self _ _), bindOk,
        ih (fun q hq => h q (List.mem_cons_of_mem _ hq)), List.map_cons]
      rfl

/-- Localization of a whole forecast list of dict entries. -/
theorem localize_list_obj (tz : String) (zr : ZoneRule) (hz : zoneLookup tz = some zr)
    (l : List (List (String × JSON))) (hnd : ∀ fs ∈ l, (fs.map Prod.fst).Nodup) :
    localize_forecast_times (jarr (l.map (fun fs => jobj fs))) tz =
      .ok (jarr (l.map (fun fs => jobj (fs.map (localizeField zr))))) := by
  simp only [localize_forecast_times, jarr]
  rw [JList.toList_ofList]
  rw [mapExcept_ok_of_forall (localizeEntry tz)
    (fun e => match e with
      | .obj fs => .obj (JFields.ofList (fs.toList.map (localizeField zr)))
      | e => e)
    (l.map (fun fs => jobj fs)) ?_]
  · simp only [Except.map]
    rw [List.map_map]
    apply congrArg
    apply congrArg
    apply congrArg
    apply List.map_congr_left
    intro fs _
    simp only [Function.comp, jobj, JFields.toList_ofPairs]
  · intro x hx
    obtain ⟨fs, hfs, rfl⟩ := List.mem_map.mp hx
    have := localizeEntry_obj tz zr hz fs (hnd fs hfs)
    simpa [jobj, JFields.toList_ofPairs] using this

/-! ## Claim C10 -/

/-- C10: on a forecast list of dict entries with unique keys (what a decoded
JSON object is), localization under a resolvable timezone succeeds and is a
frame-preserving map: the entry count and order are preserved (the output
is the pointwise map over the same list), each entry keeps its keys in
order, a field whose key is not one of datetime/time/datetime_utc/timestamp
is untouched, a non-string value at those keys is untouched, and a string
value at those keys is exactly the normalizer's output for it. -/
theorem C10_localize_is_frame_preserving (tz : String) (zr : ZoneRule)
    (hz : zoneLookup tz = some zr)
    (l : List (List (String × JSON))) (hnd : ∀ fs ∈ l, (fs.map Prod.fst).Nodup) :
    localize_forecast_times (jarr (l.map (fun fs => jobj fs))) tz =
      .ok (jarr (l.map (fun fs => jobj (fs.map (localizeField zr))))) ∧
    (l.map (fun fs => jobj (fs.map (localizeField zr)))).length = l.length ∧
    (∀ fs ∈ l, (fs.map (localizeField zr)).map Prod.fst = fs.map Prod.fst) ∧
    (∀ fs ∈ l, ∀ p ∈ fs, p.1 ∉ datetimeKeys → localizeField zr p = p) ∧
    (∀ fs ∈ l, ∀ p ∈ fs, (∀ s : String, p.2 ≠ .str s) → localizeField zr p = p) ∧
    (∀ fs ∈ l, ∀ p ∈ fs, ∀ s : String, p.1 ∈ datetimeKeys → p.2 = .str s →
      localizeField zr p = (p.1, .str (parseResult zr s))) := by
  refine ⟨localize_list_obj tz zr hz l hnd, List.length_map _ _, ?_, ?_, ?_, ?_⟩
  · intro fs _
    rw [List.map_map]
    exact List.map_congr_left (fun p _ => by
      obtain ⟨a, b⟩ := p
      unfold localizeField
      by_cases h : a ∈ datetimeKeys
      · cases b <;> simp [h]
      · simp [h])
  · intro fs _ p hp hnotin
    obtain ⟨a, b⟩ := p
    unfold localizeField
    simp at hnotin
    simp [hnotin]
  · intro fs _ p hp hnostr
    obtain ⟨a, b⟩ := p
    unfold localizeField
    by_cases h : a ∈ datetimeKeys
    · cases b with
      | str s => exact absurd rfl (hnostr s)
      | null => simp [h]
      | bool b => simp [h]
      | num r => simp [h]
      | arr l2 => simp [h]
      | obj fs2 => simp [h]
    · simp [h]
  · intro fs _ p hp s hin hstr
    obtain ⟨a, b⟩ := p
    simp only at hstr
    subst hstr
    unfold localizeField
    simp [hin]

theorem C10_witness :
    localize_forecast_times
      (jarr [jobj [("datetime", .str "2024-03-05 14:30"), ("temp", .num "5"),
                   ("time", .num "7"), ("timestamp", .null)],
             jobj [("other", .str "x"), ("datetime_utc", .str "bad value")]])
      "Europe/London" =
    .ok (jarr [jobj [("datetime", .str "2024-03-05T14:30:00+00:00"), ("temp", .num "5"),
                     ("time", .num "7"), ("timestamp", .null)],
               jobj [("other", .str "x"), ("datetime_utc", .str "bad value")]]) := by
  have h := (C10_localize_is_frame_preserving "Europe/London" .london rfl
    [[("datetime", .str "2024-03-05 14:30"), ("temp", .num "5"),
      ("time", .num "7"), ("timestamp", .null)],
     [("other", .str "x"), ("datetime_utc", .str "bad value")]]
    (by
      intro fs hfs
      simp only [List.mem_cons, List.not_mem_nil, or_false] at hfs
      rcases hfs with rfl | rfl <;> simp)).1
  exact h

/-- The value _parse_datetime returns on an arbitrary value when the
configured timezone resolves. -/
def parseDynRes (zr : ZoneRule) : JSON → JSON
  | .str s => .str (parseResult zr s)
  | x => x

theorem parse_datetime_of_zone (tz : String) (zr : ZoneRule)
    (hz : zoneLookup tz = some zr) (x : JSON) :
    parse_datetime x tz = .ok (parseDynRes zr x) := by
  cases x <;>
    simp [parse_datetime, parseDynRes, parse_datetime_str_of_zone _ tz zr hz, Except.map]

/-- Reduction of the result-document assembly when the current and range
attribute values are dicts. -/
theorem assembleResult_obj (v : Valves) (cdt hf df : JSON)
    (cfs rfs : List (String × JSON)) :
    assembleResult v cdt (.obj (JFields.ofList cfs)) (.obj (JFields.ofList rfs)) hf df =
      .ok (jobj
        [("current_date_time", cdt),
         ("current_timezone", .str v.HA_TIMEZONE),
         ("current_location", .str v.HA_LOCATION),
         ("current_weather", jobj
           [("temperatures", jobj
             [("current_temperature", jsonOfOptStr (format_value_with_unit
                ((dictGet? cfs "temperature").getD .null) v.HA_TEMPERATURE_UNIT)),
              ("temperature_high", jsonOfOptStr (format_value_with_unit
                ((dictGet? rfs "max_temperature").getD .null) v.HA_TEMPERATURE_UNIT)),
              ("temperature_low", jsonOfOptStr (format_value_with_unit
                ((dictGet? rfs "min_temperature").getD .null) v.HA_TEMPERATURE_UNIT))]),
            ("humidities", jobj
             [("humidity", jsonOfOptStr (format_value_with_unit
                ((dictGet? cfs "humidity").getD .null) v.HA_HUMIDITY_UNIT)),
              ("humidity_high", jsonOfOptStr (format_value_with_unit
                ((dictGet? rfs "max_humidity").getD .null) v.HA_HUMIDITY_UNIT)),
              ("humidity_low", jsonOfOptStr (format_value_with_unit
                ((dictGet? rfs "min_humidity").getD .null) v.HA_HUMIDITY_UNIT))]),
            ("pressures", jobj
             [("pressure", jsonOfOptStr (format_value_with_unit
                ((dictGet? cfs "pressure").getD .null) v.HA_PRESSURE_UNIT)),
              ("pressure_high", jsonOfOptStr (format_value_with_unit
                ((dictGet? rfs "max_pressure").getD .null) v.HA_PRESSURE_UNIT)),
              ("pressure_low", jsonOfOptStr (format_value_with_unit
                ((dictGet? rfs "min_pressure").getD .null) v.HA_PRESSURE_UNIT))]),
            ("lux", (dictGet? cfs "lx").getD .null)]),
         ("weather_forecasts", jobj
           [("hourly_forecast", hf),
            ("daily_forecast", df)])]) := by
  simp [assembleResult, pyGet, JFields.toList_ofPairs, bindOk, pure, Except.pure]

/-! ## Claim C9 -/

/-- C9: the value formatter sends None to None and any other value to its
Python string form concatenated with the unit (never the text None plus a
unit), and the assembled document places exactly these formatted values —
computed from the current and range attribute mappings with their
configured units — at the nine reading fields, while lux is passed through
unformatted. -/
theorem C9_readings_unit_suffixed_null_stays_null (v : Valves) (cdt hf df : JSON)
    (cfs rfs : List (String × JSON)) :
    (∀ u : String, format_value_with_unit .null u = none) ∧
    (∀ (x : JSON) (u : String), x ≠ .null →
      format_value_with_unit x u = some (pyStr x ++ u)) ∧
    assembleResult v cdt (.obj (JFields.ofList cfs)) (.obj (JFields.ofList rfs)) hf df =
      .ok (jobj
        [("current_date_time", cdt),
         ("current_timezone", .str v.HA_TIMEZONE),
         ("current_location", .str v.HA_LOCATION),
         ("current_weather", jobj
           [("temperatures", jobj
             [("current_temperature", jsonOfOptStr (format_value_with_unit
                ((dictGet? cfs "temperature").getD .null) v.HA_TEMPERATURE_UNIT)),
              ("temperature_high", jsonOfOptStr (format_value_with_unit
                ((dictGet? rfs "max_temperature").getD .null) v.HA_TEMPERATURE_UNIT)),
              ("temperature_low", jsonOfOptStr (format_value_with_unit
                ((dictGet? rfs "min_temperature").getD .null) v.HA_TEMPERATURE_UNIT))]),
            ("humidities", jobj
             [("humidity", jsonOfOptStr (format_value_with_unit
                ((dictGet? cfs "humidity").getD .null) v.HA_HUMIDITY_UNIT)),
              ("humidity_high", jsonOfOptStr (format_value_with_unit
                ((dictGet? rfs "max_humidity").getD .null) v.HA_HUMIDITY_UNIT)),
              ("humidity_low", jsonOfOptStr (format_value_with_unit
                ((dictGet? rfs "min_humidity").getD .null) v.HA_HUMIDITY_UNIT))]),
            ("pressures", jobj
             [("pressure", jsonOfOptStr (format_value_with_unit
                ((dictGet? cfs "pressure").getD .null) v.HA_PRESSURE_UNIT)),
              ("pressure_high", jsonOfOptStr (format_value_with_unit
                ((dictGet? rfs "max_pressure").getD .null) v.HA_PRESSURE_UNIT)),
              ("pressure_low", jsonOfOptStr (format_value_with_unit
                ((dictGet? rfs "min_pressure").getD .null) v.HA_PRESSURE_UNIT))]),
            ("lux", (dictGet? cfs "lx").getD .null)]),
         ("weather_forecasts", jobj
           [("hourly_forecast", hf),
            ("daily_forecast", df)])]) := by
  refine ⟨fun u => rfl, ?_, ?_⟩
  · intro x u hx
    cases x
    · exact absurd rfl hx
    · rfl
    · rfl
    · rfl
    · rfl
    · rfl
  · exact assembleResult_obj v cdt hf df cfs rfs

theorem C9_witness :
    format_value_with_unit (.num "21.5") "°C" = some "21.5°C" ∧
    format_value_with_unit .null "%" = none ∧
    assembleResult {} .null
      (.obj (JFields.ofList [("temperature", .num "21.5"), ("humidity", .null)]))
      (.obj (JFields.ofList [])) (jarr []) (jarr []) =
      .ok (jobj
        [("current_date_time", .null),
         ("current_timezone", .str "Europe/London"),
         ("current_location", .str "96 Pooley View, Polesworth, Warwickshire, UK"),
         ("current_weather", jobj
           [("temperatures", jobj
             [("current_temperature", .str "21.5°C"),
              ("temperature_high", .null),
              ("temperature_low", .null)]),
            ("humidities", jobj
             [("humidity", .null),
              ("humidity_high", .null),
              ("humidity_low", .null)]),
            ("pressures", jobj
             [("pressure", .null),
              ("pressure_high", .null),
              ("pressure_low", .null)]),
            ("lux", .null)]),
         ("weather_forecasts", jobj
           [("hourly_forecast", jarr []),
            ("daily_forecast", jarr [])])]) := by
  refine ⟨?_, ?_, ?_⟩
  · exact (C9_readings_unit_suffixed_null_stays_null {} .null (jarr []) (jarr [])
      [] []).2.1 (.num "21.5") "°C" (fun hcon => JSON.noConfusion hcon)
  · exact (C9_readings_unit_suffixed_null_stays_null {} .null (jarr []) (jarr [])
      [] []).1 "%"
  · exact (C9_readings_unit_suffixed_null_stays_null {} .null (jarr []) (jarr [])
      [("temperature", .num "21.5"), ("humidity", .null)] []).2.2

/-! ## Orchestration reduction under five successful fetches -/

theorem filter_names_nil (v : Valves) (hnames : ∀ kn ∈ sensor_names v, kn.2 ≠ "") :
    (sensor_names v).filter (fun kn => kn.2 = "") = [] := by
  rw [List.filter_eq_nil_iff]
  intro kn hkn
  simpa using hnames kn hkn

/-- With a fully-populated configuration and all five fetches answering 200
with decodable bodies, the operation issues the five requests and hands the
decoded bodies, keyed in the fixed order, to the post-processing stage. -/
theorem run_ok_bodies (v : Valves) (net : String → HttpResult)
    (hurl : v.HA_URL ≠ "") (htok : v.HA_API_TOKEN ≠ "")
    (hnames : ∀ kn ∈ sensor_names v, kn.2 ≠ "")
    (bh bd bc br bt : JSON)
    (h1 : net v.HA_HOURLY_FORECAST_SENSOR_NAME = .resp 200 (.ok bh))
    (h2 : net v.HA_DAILY_FORECAST_SENSOR_NAME = .resp 200 (.ok bd))
    (h3 : net v.HA_CURRENT_SENSOR_NAME = .resp 200 (.ok bc))
    (h4 : net v.HA_RANGE_SENSOR_NAME = .resp 200 (.ok br))
    (h5 : net v.HA_CURRENT_DATE_TIME_SENSOR_NAME = .resp 200 (.ok bt)) :
    get_current_weather_forecast v net =
      (processData v
        [("hourly_forecast", bh), ("daily_forecast", bd), ("current", bc),
         ("current_range", br), ("current_date_time", bt)],
       (sensor_names v).map (fun kn => get_sensor_url v kn.2)) := by
  unfold get_current_weather_forecast
  simp only [hurl, htok, filter_names_nil v hnames, if_neg hurl, if_neg htok,
    List.map_nil, ne_eq, not_true_eq_false, if_false, if_neg (by simp : ¬([] : List String) ≠ [])]
  simp [sensor_names, h1, h2, h3, h4, h5, fetch_sensor_data, collectResults, bindOk,
    pure, Except.pure]

/-- The post-processing stage when extraction yields forecast lists of dict
entries: the current-datetime value is normalized, both lists localized,
and the non-empty checks applied in order (hourly first). -/
theorem processData_after_extract (v : Valves) (zr : ZoneRule)
    (hz : zoneLookup v.HA_TIMEZONE = some zr)
    (data : List (String × JSON))
    (hfs dfs : List (List (String × JSON)))
    (hhnd : ∀ fs ∈ hfs, (fs.map Prod.fst).Nodup)
    (hdnd : ∀ fs ∈ dfs, (fs.map Prod.fst).Nodup)
    (cur rng st : JSON)
    (hext : extractAttributes data =
      .ok (jarr (hfs.map (fun fs => jobj fs)), jarr (dfs.map (fun fs => jobj fs)), cur, rng, st)) :
    processData v data =
      (if hfs.isEmpty then .ok (dumpsDefault (errDoc "No hourly forecast data available."))
       else if dfs.isEmpty then .ok (dumpsDefault (errDoc "No daily forecast data available."))
       else
         (assembleResult v (if truthy st then parseDynRes zr st else st) cur rng
            (jarr (hfs.map (fun fs => jobj (fs.map (localizeField zr)))))
            (jarr (dfs.map (fun fs => jobj (fs.map (localizeField zr))))) >>=
          fun doc => pure (dumpsCompact doc))) := by
  unfold processData
  rw [hext]
  have hloc1 := localize_list_obj v.HA_TIMEZONE zr hz hfs hhnd
  have hloc2 := localize_list_obj v.HA_TIMEZONE zr hz dfs hdnd
  have hpd : parse_datetime st v.HA_TIMEZONE = .ok (parseDynRes zr st) :=
    parse_datetime_of_zone v.HA_TIMEZONE zr hz st
  simp only [List.map_nil, List.map_cons] at hloc1 hloc2
  cases hfs with
  | nil =>
      cases htr : truthy st <;>
        simp only [htr, hpd, hloc1, hloc2, bindOk, pureOk, List.map_nil, List.map_cons,
          truthy_jarr_nil, truthy_jarr_cons, Bool.not_false, Bool.not_true, if_true,
          Bool.false_eq_true, if_false, List.isEmpty] <;> rfl
  | cons f0 frest =>
      simp only [List.map_cons] at hloc1
      cases dfs with
      | nil =>
          cases htr : truthy st <;>
            simp only [htr, hpd, hloc1, hloc2, bindOk, pureOk, List.map_nil, List.map_cons,
              truthy_jarr_nil, truthy_jarr_cons, Bool.not_false, Bool.not_true, if_true,
              Bool.false_eq_true, if_false, List.isEmpty] <;> rfl
      | cons d0 drest =>
          simp only [List.map_cons] at hloc2
          cases htr : truthy st <;>
            simp only [htr, hpd, hloc1, hloc2, bindOk, pureOk, List.map_nil, List.map_cons,
              truthy_jarr_nil, truthy_jarr_cons, Bool.not_false, Bool.not_true, if_true,
              Bool.false_eq_true, if_false, List.isEmpty]

/-! ## Claim C4 -/

/-- C4: with a fully-populated configuration whose timezone resolves and
all five fetches answering HTTP 200 with decodable bodies, an empty
extracted hourly forecast sequence makes the operation return the hourly
ErrorDocument — whatever the daily sequence holds, so in particular also
when both are empty (hourly precedence) — and a non-empty hourly sequence
with an empty daily sequence returns the daily ErrorDocument; the check
sits after extraction, despite every fetch having succeeded. -/
theorem C4_empty_forecast_postcondition (v : Valves) (net : String → HttpResult)
    (zr : ZoneRule)
    (hurl : v.HA_URL ≠ "") (htok : v.HA_API_TOKEN ≠ "")
    (hnames : ∀ kn ∈ sensor_names v, kn.2 ≠ "")
    (hz : zoneLookup v.HA_TIMEZONE = some zr)
    (bh bd bc br bt : JSON)
    (h1 : net v.HA_HOURLY_FORECAST_SENSOR_NAME = .resp 200 (.ok bh))
    (h2 : net v.HA_DAILY_FORECAST_SENSOR_NAME = .resp 200 (.ok bd))
    (h3 : net v.HA_CURRENT_SENSOR_NAME = .resp 200 (.ok bc))
    (h4 : net v.HA_RANGE_SENSOR_NAME = .resp 200 (.ok br))
    (h5 : net v.HA_CURRENT_DATE_TIME_SENSOR_NAME = .resp 200 (.ok bt))
    (hfs dfs : List (List (String × JSON)))
    (hhnd : ∀ fs ∈ hfs, (fs.map Prod.fst).Nodup)
    (hdnd : ∀ fs ∈ dfs, (fs.map Prod.fst).Nodup)
    (cur rng st : JSON)
    (hext : extractAttributes
        [("hourly_forecast", bh), ("daily_forecast", bd), ("current", bc),
         ("current_range", br), ("current_date_time", bt)] =
      .ok (jarr (hfs.map (fun fs => jobj fs)), jarr (dfs.map (fun fs => jobj fs)),
           cur, rng, st)) :
    (hfs = [] →
      get_current_weather_forecast v net =
        (.ok (dumpsDefault (errDoc "No hourly forecast data available.")),
         (sensor_names v).map (fun kn => get_sensor_url v kn.2))) ∧
    (hfs ≠ [] → dfs = [] →
      get_current_weather_forecast v net =
        (.ok (dumpsDefault (errDoc "No daily forecast data available.")),
         (sensor_names v).map (fun kn => get_sensor_url v kn.2))) := by
  have hrun := run_ok_bodies v net hurl htok hnames bh bd bc br bt h1 h2 h3 h4 h5
  have hpd := processData_after_extract v zr hz _ hfs dfs hhnd hdnd cur rng st hext
  constructor
  · intro hhe
    subst hhe
    rw [hrun, hpd]
    simp [List.isEmpty]
  · intro hne hde
    subst hde
    rw [hrun, hpd]
    obtain ⟨f0, frest, rfl⟩ := List.exists_cons_of_ne_nil hne
    simp [List.isEmpty]

theorem C4_witness :
    get_current_weather_forecast
      { HA_API_TOKEN := "t"
        HA_HOURLY_FORECAST_SENSOR_NAME := "s.h"
        HA_DAILY_FORECAST_SENSOR_NAME := "s.d"
        HA_CURRENT_SENSOR_NAME := "s.c"
        HA_RANGE_SENSOR_NAME := "s.r"
        HA_CURRENT_DATE_TIME_SENSOR_NAME := "s.t" }
      (fun n =>
        if n = "s.d" then
          .resp 200 (.ok (jobj [("attributes", jobj [("forecast",
            jarr [jobj [("time", .str "2024-03-06")]])])]))
        else .resp 200 (.ok (jobj [("attributes", jobj [("forecast", jarr [])])]))) =
      (.ok "\x7b\"error\": \"No hourly forecast data available.\"\x7d",
       ["https://my-home-assistant.local:8123/api/states/s.h",
        "https://my-home-assistant.local:8123/api/states/s.d",
        "https://my-home-assistant.local:8123/api/states/s.c",
        "https://my-home-assistant.local:8123/api/states/s.r",
        "https://my-home-assistant.local:8123/api/states/s.t"]) ∧
    get_current_weather_forecast
      { HA_API_TOKEN := "t"
        HA_HOURLY_FORECAST_SENSOR_NAME := "s.h"
        HA_DAILY_FORECAST_SENSOR_NAME := "s.d"
        HA_CURRENT_SENSOR_NAME := "s.c"
        HA_RANGE_SENSOR_NAME := "s.r"
        HA_CURRENT_DATE_TIME_SENSOR_NAME := "s.t" }
      (fun n =>
        if n = "s.h" then
          .resp 200 (.ok (jobj [("attributes", jobj [("forecast",
            jarr [jobj [("datetime", .str "2024-03-05 14:00")]])])]))
        else .resp 200 (.ok (jobj [("attributes", jobj [("forecast", jarr [])])]))) =
      (.ok "\x7b\"error\": \"No daily forecast data available.\"\x7d",
       ["https://my-home-assistant.local:8123/api/states/s.h",
        "https://my-home-assistant.local:8123/api/states/s.d",
        "https://my-home-assistant.local:8123/api/states/s.c",
        "https://my-home-assistant.local:8123/api/states/s.r",
        "https://my-home-assistant.local:8123/api/states/s.t"]) := by
  constructor
  · exact (C4_empty_forecast_postcondition
      { HA_API_TOKEN := "t"
        HA_HOURLY_FORECAST_SENSOR_NAME := "s.h"
        HA_DAILY_FORECAST_SENSOR_NAME := "s.d"
        HA_CURRENT_SENSOR_NAME := "s.c"
        HA_RANGE_SENSOR_NAME := "s.r"
        HA_CURRENT_DATE_TIME_SENSOR_NAME := "s.t" }
      (fun n =>
        if n = "s.d" then
          .resp 200 (.ok (jobj [("attributes", jobj [("forecast",
            jarr [jobj [("time", .str "2024-03-06")]])])]))
        else .resp 200 (.ok (jobj [("attributes", jobj [("forecast", jarr [])])])))
      .london (by decide) (by decide) (by decide) rfl
      (jobj [("attributes", jobj [("forecast", jarr [])])])
      (jobj [("attributes", jobj [("forecast", jarr [jobj [("time", .str "2024-03-06")]])])])
      (jobj [("attributes", jobj [("forecast", jarr [])])])
      (jobj [("attributes", jobj [("forecast", jarr [])])])
      (jobj [("attributes", jobj [("forecast", jarr [])])])
      rfl rfl rfl rfl rfl
      [] [[("time", .str "2024-03-06")]]
      (by intro fs hfs; simp at hfs)
      (by
        intro fs hfs
        simp only [List.mem_cons, List.not_mem_nil, or_false] at hfs
        subst hfs
        simp)
      (jobj [("forecast", jarr [])]) (jobj [("forecast", jarr [])]) .null
      rfl).1 rfl
  · exact (C4_empty_forecast_postcondition
      { HA_API_TOKEN := "t"
        HA_HOURLY_FORECAST_SENSOR_NAME := "s.h"
        HA_DAILY_FORECAST_SENSOR_NAME := "s.d"
        HA_CURRENT_SENSOR_NAME := "s.c"
        HA_RANGE_SENSOR_NAME := "s.r"
        HA_CURRENT_DATE_TIME_SENSOR_NAME := "s.t" }
      (fun n =>
        if n = "s.h" then
          .resp 200 (.ok (jobj [("attributes", jobj [("forecast",
            jarr [jobj [("datetime", .str "2024-03-05 14:00")]])])]))
        else .resp 200 (.ok (jobj [("attributes", jobj [("forecast", jarr [])])])))
      .london (by decide) (by decide) (by decide) rfl
      (jobj [("attributes", jobj [("forecast", jarr [jobj [("datetime", .str "2024-03-05 14:00")]])])])
      (jobj [("attributes", jobj [("forecast", jarr [])])])
      (jobj [("attributes", jobj [("forecast", jarr [])])])
      (jobj [("attributes", jobj [("forecast", jarr [])])])
      (jobj [("attributes", jobj [("forecast", jarr [])])])
      rfl rfl rfl rfl rfl
      [[("datetime", .str "2024-03-05 14:00")]] []
      (by
        intro fs hfs
        simp only [List.mem_cons, List.not_mem_nil, or_false] at hfs
        subst hfs
        simp)
      (by intro fs hfs; simp at hfs)
      (jobj [("forecast", jarr [])]) (jobj [("forecast", jarr [])]) .null
      rfl).2 (by simp) rfl

/-! ## Claim C2 -/

/-- An ISO-8601 rendering with an attached offset: the isoformat of an
aware datetime value. -/
def IsAwareIso (s : String) : Prop := ∃ t : DT, t.off.isSome ∧ s = isoformat t

theorem parseResult_aware (zr : ZoneRule) (s : String) (hs : s ≠ "")
    (hp : (tryFormats (cleanL s.data)).isSome ∨ (isoParse (cleanL s.data)).isSome) :
    IsAwareIso (parseResult zr s) := by
  unfold parseResult
  rw [if_neg hs]
  cases htf : tryFormats (cleanL s.data) with
  | some t => exact ⟨withZone zr t, by simp [withZone], rfl⟩
  | none =>
      cases hti : isoParse (cleanL s.data) with
      | some t =>
          cases hto : t.off with
          | none =>
              refine ⟨withZone zr t, by simp [withZone], ?_⟩
              simp [hto]
          | some o =>
              refine ⟨t, by simp [hto], ?_⟩
              simp [hto]
      | none =>
          rw [htf, hti] at hp
          simp at hp

/-- C2: with a fully-populated configuration whose timezone resolves, all
five fetches answering HTTP 200 with decodable bodies, extraction giving
dict current and range attributes and two non-empty forecast lists of dict
entries, the operation returns the compact serialization of the success
document with exactly the top-level keys current_date_time,
current_timezone, current_location, current_weather (temperatures,
humidities, pressures, lux) and weather_forecasts carrying both localized
sequences; and every string value at a datetime-like key that the
normalizer can parse is rewritten in those sequences to an ISO-8601 string
with an attached offset. -/
theorem C2_success_schema (v : Valves) (net : String → HttpResult) (zr : ZoneRule)
    (hurl : v.HA_URL ≠ "") (htok : v.HA_API_TOKEN ≠ "")
    (hnames : ∀ kn ∈ sensor_names v, kn.2 ≠ "")
    (hz : zoneLookup v.HA_TIMEZONE = some zr)
    (bh bd bc br bt : JSON)
    (h1 : net v.HA_HOURLY_FORECAST_SENSOR_NAME = .resp 200 (.ok bh))
    (h2 : net v.HA_DAILY_FORECAST_SENSOR_NAME = .resp 200 (.ok bd))
    (h3 : net v.HA_CURRENT_SENSOR_NAME = .resp 200 (.ok bc))
    (h4 : net v.HA_RANGE_SENSOR_NAME = .resp 200 (.ok br))
    (h5 : net v.HA_CURRENT_DATE_TIME_SENSOR_NAME = .resp 200 (.ok bt))
    (hfs dfs : List (List (String × JSON)))
    (hhnd : ∀ fs ∈ hfs, (fs.map Prod.fst).Nodup)
    (hdnd : ∀ fs ∈ dfs, (fs.map Prod.fst).Nodup)
    (cfs rfs : List (String × JSON)) (st : JSON)
    (hext : extractAttributes
        [("hourly_forecast", bh), ("daily_forecast", bd), ("current", bc),
         ("current_range", br), ("current_date_time", bt)] =
      .ok (jarr (hfs.map (fun fs => jobj fs)), jarr (dfs.map (fun fs => jobj fs)),
           .obj (JFields.ofList cfs), .obj (JFields.ofList rfs), st))
    (hhne : hfs ≠ []) (hdne : dfs ≠ []) :
    get_current_weather_forecast v net =
      (.ok (dumpsCompact (jobj
        [("current_date_time", if truthy st then parseDynRes zr st else st),
         ("current_timezone", .str v.HA_TIMEZONE),
         ("current_location", .str v.HA_LOCATION),
         ("current_weather", jobj
           [("temperatures", jobj
             [("current_temperature", jsonOfOptStr (format_value_with_unit
                ((dictGet? cfs "temperature").getD .null) v.HA_TEMPERATURE_UNIT)),
              ("temperature_high", jsonOfOptStr (format_value_with_unit
                ((dictGet? rfs "max_temperature").getD .null) v.HA_TEMPERATURE_UNIT)),
              ("temperature_low", jsonOfOptStr (format_value_with_unit
                ((dictGet? rfs "min_temperature").getD .null) v.HA_TEMPERATURE_UNIT))]),
            ("humidities", jobj
             [("humidity", jsonOfOptStr (format_value_with_unit
                ((dictGet? cfs "humidity").getD .null) v.HA_HUMIDITY_UNIT)),
              ("humidity_high", jsonOfOptStr (format_value_with_unit
                ((dictGet? rfs "max_humidity").getD .null) v.HA_HUMIDITY_UNIT)),
              ("humidity_low", jsonOfOptStr (format_value_with_unit
                ((dictGet? rfs "min_humidity").getD .null) v.HA_HUMIDITY_UNIT))]),
            ("pressures", jobj
             [("pressure", jsonOfOptStr (format_value_with_unit
                ((dictGet? cfs "pressure").getD .null) v.HA_PRESSURE_UNIT)),
              ("pressure_high", jsonOfOptStr (format_value_with_unit
                ((dictGet? rfs "max_pressure").getD .null) v.HA_PRESSURE_UNIT)),
              ("pressure_low", jsonOfOptStr (format_value_with_unit
                ((dictGet? rfs "min_pressure").getD .null) v.HA_PRESSURE_UNIT))]),
            ("lux", (dictGet? cfs "lx").getD .null)]),
         ("weather_forecasts", jobj
           [("hourly_forecast", jarr (hfs.map (fun fs => jobj (fs.map (localizeField zr))))),
            ("daily_forecast", jarr (dfs.map (fun fs => jobj (fs.map (localizeField zr)))))])])),
       (sensor_names v).map (fun kn => get_sensor_url v kn.2)) ∧
    (∀ fs ∈ hfs ++ dfs, ∀ p ∈ fs, ∀ s : String, p.1 ∈ datetimeKeys → p.2 = .str s →
      s ≠ "" → ((tryFormats (cleanL s.data)).isSome ∨ (isoParse (cleanL s.data)).isSome) →
      localizeField zr p = (p.1, .str (parseResult zr s)) ∧
        IsAwareIso (parseResult zr s)) := by
  constructor
  · rw [run_ok_bodies v net hurl htok hnames bh bd bc br bt h1 h2 h3 h4 h5,
      processData_after_extract v zr hz _ hfs dfs hhnd hdnd _ _ st hext]
    obtain ⟨f0, frest, rfl⟩ := List.exists_cons_of_ne_nil hhne
    obtain ⟨d0, drest, rfl⟩ := List.exists_cons_of_ne_nil hdne
    simp only [List.isEmpty, Bool.false_eq_true, if_false]
    rw [assembleResult_obj, bindOk, pureOk]
  · intro fs _ p hp s hin hstr hsne hparse
    obtain ⟨a, b⟩ := p
    simp only at hstr
    subst hstr
    constructor
    · unfold localizeField
      simp [hin]
    · exact parseResult_aware zr s hsne hparse

set_option maxRecDepth 40000 in
theorem C2_witness :
    get_current_weather_forecast
      { HA_API_TOKEN := "t"
        HA_HOURLY_FORECAST_SENSOR_NAME := "s.h"
        HA_DAILY_FORECAST_SENSOR_NAME := "s.d"
        HA_CURRENT_SENSOR_NAME := "s.c"
        HA_RANGE_SENSOR_NAME := "s.r"
        HA_CURRENT_DATE_TIME_SENSOR_NAME := "s.t" }
      (fun n =>
        if n = "s.h" then .resp 200 (.ok (jobj [("attributes", jobj [("forecast",
          jarr [jobj [("datetime", .str "2024-03-05 14:00"), ("temp", .num "5")]])])]))
        else if n = "s.d" then .resp 200 (.ok (jobj [("attributes", jobj [("forecast",
          jarr [jobj [("time", .str "2024-03-06"), ("cond", .str "rain")]])])]))
        else if n = "s.c" then .resp 200 (.ok (jobj [("attributes", jobj
          [("temperature", .num "21.5"), ("humidity", .null), ("lx", .num "120")])]))
        else if n = "s.r" then .resp 200 (.ok (jobj [("attributes", jobj
          [("max_temperature", .num "23.5"), ("min_temperature", .num "1.0")])]))
        else .resp 200 (.ok (jobj [("state", .str "2024-03-05 14:30")]))) =
      (.ok "\x7b\"current_date_time\":\"2024-03-05T14:30:00+00:00\",\"current_timezone\":\"Europe/London\",\"current_location\":\"96 Pooley View, Polesworth, Warwickshire, UK\",\"current_weather\":\x7b\"temperatures\":\x7b\"current_temperature\":\"21.5\\u00b0C\",\"temperature_high\":\"23.5\\u00b0C\",\"temperature_low\":\"1.0\\u00b0C\"\x7d,\"humidities\":\x7b\"humidity\":null,\"humidity_high\":null,\"humidity_low\":null\x7d,\"pressures\":\x7b\"pressure\":null,\"pressure_high\":null,\"pressure_low\":null\x7d,\"lux\":120\x7d,\"weather_forecasts\":\x7b\"hourly_forecast\":[\x7b\"datetime\":\"2024-03-05T14:00:00+00:00\",\"temp\":5\x7d],\"daily_forecast\":[\x7b\"time\":\"2024-03-06T00:00:00+00:00\",\"cond\":\"rain\"\x7d]\x7d\x7d",
       ["https://my-home-assistant.local:8123/api/states/s.h",
        "https://my-home-assistant.local:8123/api/states/s.d",
        "https://my-home-assistant.local:8123/api/states/s.c",
        "https://my-home-assistant.local:8123/api/states/s.r",
        "https://my-home-assistant.local:8123/api/states/s.t"]) :=
  (C2_success_schema
    { HA_API_TOKEN := "t"
      HA_HOURLY_FORECAST_SENSOR_NAME := "s.h"
      HA_DAILY_FORECAST_SENSOR_NAME := "s.d"
      HA_CURRENT_SENSOR_NAME := "s.c"
      HA_RANGE_SENSOR_NAME := "s.r"
      HA_CURRENT_DATE_TIME_SENSOR_NAME := "s.t" }
    (fun n =>
      if n = "s.h" then .resp 200 (.ok (jobj [("attributes", jobj [("forecast",
        jarr [jobj [("datetime", .str "2024-03-05 14:00"), ("temp", .num "5")]])])]))
      else if n = "s.d" then .resp 200 (.ok (jobj [("attributes", jobj [("forecast",
        jarr [jobj [("time", .str "2024-03-06"), ("cond", .str "rain")]])])]))
      else if n = "s.c" then .resp 200 (.ok (jobj [("attributes", jobj
        [("temperature", .num "21.5"), ("humidity", .null), ("lx", .num "120")])]))
      else if n = "s.r" then .resp 200 (.ok (jobj [("attributes", jobj
        [("max_temperature", .num "23.5"), ("min_temperature", .num "1.0")])]))
      else .resp 200 (.ok (jobj [("state", .str "2024-03-05 14:30")])))
    .london (by decide) (by decide) (by decide) rfl
    (jobj [("attributes", jobj [("forecast",
      jarr [jobj [("datetime", .str "2024-03-05 14:00"), ("temp", .num "5")]])])])
    (jobj [("attributes", jobj [("forecast",
      jarr [jobj [("time", .str "2024-03-06"), ("cond", .str "rain")]])])])
    (jobj [("attributes", jobj
      [("temperature", .num "21.5"), ("humidity", .null), ("lx", .num "120")])])
    (jobj [("attributes", jobj
      [("max_temperature", .num "23.5"), ("min_temperature", .num "1.0")])])
    (jobj [("state", .str "2024-03-05 14:30")])
    rfl rfl rfl rfl rfl
    [[("datetime", .str "2024-03-05 14:00"), ("temp", .num "5")]]
    [[("time", .str "2024-03-06"), ("cond", .str "rain")]]
    (by
      intro fs hfs
      simp only [List.mem_cons, List.not_mem_nil, or_false] at hfs
      subst hfs
      simp)
    (by
      intro fs hfs
      simp only [List.mem_cons, List.not_mem_nil, or_false] at hfs
      subst hfs
      simp)
    [("temperature", .num "21.5"), ("humidity", .null), ("lx", .num "120")]
    [("max_temperature", .num "23.5"), ("min_temperature", .num "1.0")]
    (.str "2024-03-05 14:30")
    rfl (List.cons_ne_nil _ _) (List.cons_ne_nil _ _)).1

/-! ## Round-trip properties of isoformat (towards claim C7) -/

theorem obindSome {α β : Type} (a : α) (f : α → Option β) : (some a >>= f) = f a := rfl

theorem obindNone {α β : Type} (f : α → Option β) : ((none : Option α) >>= f) = none := rfl

theorem dChar_mod (d : Nat) : dChar d = dChar (d % 10) := by
  unfold dChar
  have : d % 10 % 10 = d % 10 := by omega
  rw [this]

theorem dChar_facts_lt (m : Nat) (h : m < 10) :
    isDigitC (dChar m) = true ∧ dval (dChar m) = m ∧ dChar m ≠ ',' ∧
      isSpaceC (dChar m) = false := by
  interval_cases m <;> refine ⟨by decide, by decide, by decide, by decide⟩

theorem dChar_digit (d : Nat) : isDigitC (dChar d) = true := by
  rw [dChar_mod]
  exact (dChar_facts_lt (d % 10) (by omega)).1

theorem dval_dChar (d : Nat) : dval (dChar d) = d % 10 := by
  rw [dChar_mod]
  exact (dChar_facts_lt (d % 10) (by omega)).2.1

theorem dChar_ne_comma (d : Nat) : dChar d ≠ ',' := by
  rw [dChar_mod]
  exact (dChar_facts_lt (d % 10) (by omega)).2.2.1

theorem dChar_not_space (d : Nat) : isSpaceC (dChar d) = false := by
  rw [dChar_mod]
  exact (dChar_facts_lt (d % 10) (by omega)).2.2.2

theorem p2_pad2 (n : Nat) (h : n < 100) (r : List Char) :
    p2 (pad2 n ++ r) = some (n, r) := by
  simp only [pad2, List.cons_append, List.nil_append, p2, dChar_digit, Bool.and_self,
    if_true, dval_dChar]
  have h1 : n / 10 % 10 = n / 10 := by omega
  have h2 : n % 10 % 10 = n % 10 := by omega
  rw [h1, h2]
  have : 10 * (n / 10) + n % 10 = n := by omega
  rw [this]

theorem dval_le_of_digit (c : Char) (h : isDigitC c = true) : dval c ≤ 9 := by
  unfold isDigitC at h
  unfold dval
  have := (Bool.and_eq_true _ _).mp h
  simp only [decide_eq_true_eq] at this
  omega

theorem p2_lt (l : List Char) (n : Nat) (r : List Char) (h : p2 l = some (n, r)) :
    n < 100 := by
  match l with
  | [] => exact absurd h (by simp [p2])
  | [a] => exact absurd h (by simp [p2])
  | a :: b :: r' =>
      simp only [p2] at h
      by_cases hd : (isDigitC a && isDigitC b) = true
      · rw [if_pos hd] at h
        obtain ⟨hab, -⟩ := (Bool.and_eq_true _ _).mp hd
        obtain ⟨-, hb⟩ := (Bool.and_eq_true _ _).mp hd
        have ha' := dval_le_of_digit a hab
        have hb' := dval_le_of_digit b hb
        have hv : 10 * dval a + dval b = n := by
          have := Option.some.inj h
          exact (Prod.mk.inj this).1
        omega
      · rw [if_neg hd] at h
        exact absurd h (by simp)

theorem p4_pad4 (n : Nat) (h : n < 10000) (r : List Char) :
    p4 (pad4 n ++ r) = some (n, r) := by
  have hsplit : pad4 n ++ r = pad2 (n / 100) ++ (pad2 (n % 100) ++ r) := by
    simp [pad4, List.append_assoc]
  unfold p4
  rw [hsplit, p2_pad2 (n / 100) (by omega)]
  simp only [p2_pad2 (n % 100) (by omega : n % 100 < 100)]
  have : 100 * (n / 100) + n % 100 = n := by omega
  rw [this]

theorem p4_lt (l : List Char) (n : Nat) (r : List Char) (h : p4 l = some (n, r)) :
    n < 10000 := by
  unfold p4 at h
  cases h1 : p2 l with
  | none => rw [h1] at h; exact absurd h (by simp)
  | some ar =>
      obtain ⟨a, r1⟩ := ar
      simp only [h1] at h
      cases h2 : p2 r1 with
      | none =>
          simp only [h2] at h
          exact Option.noConfusion h
      | some br =>
          obtain ⟨b, r2⟩ := br
          simp only [h2] at h
          have hv : 100 * a + b = n := (Prod.mk.inj (Option.some.inj h)).1
          have := p2_lt l a r1 h1
          have := p2_lt r1 b r2 h2
          omega

theorem expectC_cons (c : Char) (r : List Char) : expectC c (c :: r) = some r := by
  simp [expectC]

theorem pad2_all_digit (n : Nat) : ∀ c ∈ pad2 n, isDigitC c = true := by
  intro c hc
  simp only [pad2, List.mem_cons, List.not_mem_nil, or_false] at hc
  rcases hc with rfl | rfl <;> exact dChar_digit _

theorem pad6_split (n : Nat) :
    pad6 n = pad2 (n / 10000) ++ (pad2 (n / 100 % 100) ++ pad2 (n % 100)) := by
  simp [pad6, List.append_assoc]

theorem pad6_all_digit (n : Nat) : ∀ c ∈ pad6 n, isDigitC c = true := by
  intro c hc
  rw [pad6_split] at hc
  simp only [List.mem_append] at hc
  rcases hc with hc | hc | hc <;> exact pad2_all_digit _ c hc

theorem takeWhile_append_all {p : Char → Bool} (l r : List Char)
    (hl : ∀ c ∈ l, p c = true) (hr : ∀ c, r.head? = some c → p c = false) :
    (l ++ r).takeWhile p = l ∧ (l ++ r).dropWhile p = r := by
  induction l with
  | nil =>
      simp only [List.nil_append]
      cases r with
      | nil => exact ⟨rfl, rfl⟩
      | cons c r' =>
          have := hr c rfl
          simp [List.takeWhile, List.dropWhile, this]
  | cons a l' ih =>
      have ha : p a = true := hl a (List.mem_cons_self _ _)
      obtain ⟨ih1, ih2⟩ := ih (fun c hc => hl c (List.mem_cons_of_mem _ hc))
      simp [List.takeWhile, List.dropWhile, ha, ih1, ih2]

theorem foldl_digits_pad2 (acc n : Nat) (h : n < 100) :
    (pad2 n).foldl (fun acc c => 10 * acc + dval c) acc = 100 * acc + n := by
  simp only [pad2, List.foldl_cons, List.foldl_nil, dval_dChar]
  have h1 : n / 10 % 10 = n / 10 := by omega
  have h2 : n % 10 % 10 = n % 10 := by omega
  rw [h1, h2]
  omega

theorem foldl_digits_pad6 (n : Nat) (h : n < 1000000) :
    (pad6 n).foldl (fun acc c => 10 * acc + dval c) 0 = n := by
  rw [pad6_split, List.foldl_append, List.foldl_append]
  rw [foldl_digits_pad2 0 (n / 10000) (by omega),
    foldl_digits_pad2 _ (n / 100 % 100) (by omega),
    foldl_digits_pad2 _ (n % 100) (by omega)]
  omega

theorem pad6_length (n : Nat) : (pad6 n).length = 6 := by
  rw [pad6_split]
  simp [pad2]

theorem pFrac_pad6 (n : Nat) (h : n < 1000000) (r : List Char)
    (hr : ∀ c, r.head? = some c → isDigitC c = false) :
    pFrac (pad6 n ++ r) = some (n, r) := by
  obtain ⟨ht, hd⟩ := takeWhile_append_all (pad6 n) r (pad6_all_digit n) hr
  unfold pFrac
  rw [ht, hd]
  have hne : pad6 n ≠ [] := by
    rw [pad6_split]
    simp [pad2]
  rw [if_neg hne]
  rw [pad6_length]
  have htake : (pad6 n).take 6 = pad6 n := by
    apply List.take_of_length_le
    rw [pad6_length]
  rw [htake, foldl_digits_pad6 n h]
  norm_num

theorem pTimePart_render (hh mi se : Nat) (hhh : hh < 100) (hmi : mi < 100)
    (hse : se < 100) (r : List Char) :
    pTimePart (pad2 hh ++ (':' :: (pad2 mi ++ (':' :: (pad2 se ++ r))))) =
      some (hh, mi, se, r) := by
  unfold pTimePart
  rw [p2_pad2 hh hhh]
  simp only [obindSome]
  rw [p2_pad2 mi hmi]
  simp only [obindSome]
  rw [p2_pad2 se hse]
  simp only [obindSome]
  rfl

theorem pOffset_minus (rest : List Char) : pOffset ('-' :: rest) =
    (do
      let (oh, rest) ← p2 rest
      let rest ← expectC ':' rest
      let (om, rest) ← p2 rest
      if oh ≤ 23 && om ≤ 59 then pure (some (-((oh * 60 + om : Nat) : Int)), rest)
      else none) := by
  simp only [pOffset]
  rw [if_neg (by decide : ¬ ('-' : Char) = 'Z')]
  rw [if_neg (by decide : ¬ ('-' : Char) = '+')]
  rw [if_pos (trivial : True)]

theorem pOffset_plus (rest : List Char) : pOffset ('+' :: rest) =
    (do
      let (oh, rest) ← p2 rest
      let rest ← expectC ':' rest
      let (om, rest) ← p2 rest
      if oh ≤ 23 && om ≤ 59 then pure (some ((oh * 60 + om : Nat) : Int), rest)
      else none) := by
  simp only [pOffset]
  rw [if_neg (by decide : ¬ ('+' : Char) = 'Z')]
  rw [if_pos (trivial : True)]

theorem renderOffset_parse (o : Int) (h : o.natAbs ≤ 1439) :
    pOffset (renderOffset o) = some (some o, []) := by
  have hp2a := p2_pad2 (o.natAbs / 60) (by omega) (':' :: pad2 (o.natAbs % 60))
  have hp2b := p2_pad2 (o.natAbs % 60) (by omega) []
  rw [List.append_nil] at hp2b
  by_cases hneg : o < 0
  · have hro : renderOffset o = '-' :: (pad2 (o.natAbs / 60) ++ ':' :: pad2 (o.natAbs % 60)) := by
      unfold renderOffset
      rw [if_pos hneg]
    have heq : -((o.natAbs / 60 * 60 + o.natAbs % 60 : Nat) : Int) = o := by omega
    rw [hro, pOffset_minus, hp2a]
    simp only [obindSome]
    rw [expectC_cons]
    simp only [obindSome]
    rw [hp2b]
    simp only [obindSome]
    rw [if_pos (by simp only [Bool.and_eq_true, decide_eq_true_eq]; omega)]
    rw [heq]
    rfl
  · have hro : renderOffset o = '+' :: (pad2 (o.natAbs / 60) ++ ':' :: pad2 (o.natAbs % 60)) := by
      unfold renderOffset
      rw [if_neg hneg]
    have heq : ((o.natAbs / 60 * 60 + o.natAbs % 60 : Nat) : Int) = o := by omega
    rw [hro, pOffset_plus, hp2a]
    simp only [obindSome]
    rw [expectC_cons]
    simp only [obindSome]
    rw [hp2b]
    simp only [obindSome]
    rw [if_pos (by simp only [Bool.and_eq_true, decide_eq_true_eq]; omega)]
    rw [heq]
    rfl

theorem p2or1_pad2 (twoOk oneOk : Nat → Bool) (n : Nat) (h : n < 100)
    (htwo : twoOk n = true) (r : List Char) :
    p2or1 twoOk oneOk (pad2 n ++ r) = some (n, r) := by
  have hv : 10 * (n / 10 % 10) + n % 10 % 10 = n := by omega
  simp only [pad2, List.cons_append, List.nil_append, p2or1, dChar_digit, dval_dChar, hv,
    htwo, Bool.and_self, Bool.and_true, Bool.true_and, if_true]

theorem expectC_ne (c c' : Char) (r : List Char) (h : c' ≠ c) :
    expectC c (c' :: r) = none := by
  simp [expectC, h]

theorem daysInMonth_le (y m : Nat) : daysInMonth y m ≤ 31 := by
  unfold daysInMonth
  split_ifs <;> omega

theorem renderOffset_ne_nil (o : Int) : renderOffset o ≠ [] := by
  unfold renderOffset
  exact List.cons_ne_nil _ _

theorem renderOffset_head_not_digit (o : Int) :
    ∀ c, (renderOffset o).head? = some c → isDigitC c = false := by
  intro c hc
  unfold renderOffset at hc
  simp only [List.head?_cons, Option.some.injEq] at hc
  subst hc
  by_cases hneg : o < 0 <;> simp [hneg] <;> decide

theorem pFracOpt_renderOffset (o : Int) :
    pFracOpt (renderOffset o) = some (0, renderOffset o) := by
  unfold renderOffset pFracOpt
  by_cases hneg : o < 0 <;> simp [hneg]

/-- Parsing back the rendering of a constructor-valid aware datetime yields
the same value. -/
theorem isoParse_isoformat (t : DT) (o : Int)
    (hy1 : 1 ≤ t.y) (hy2 : t.y < 10000) (hm1 : 1 ≤ t.m) (hm2 : t.m ≤ 12)
    (hd1 : 1 ≤ t.d) (hd2 : t.d ≤ daysInMonth t.y t.m)
    (hhh : t.hh ≤ 23) (hmi : t.mi ≤ 59) (hse : t.se ≤ 59) (hus : t.us < 1000000)
    (hoff : t.off = some o) (ho : o.natAbs ≤ 1439) :
    isoParse (isoformatL t) = some t := by
  have hshape : isoformatL t =
      pad4 t.y ++ ('-' :: (pad2 t.m ++ ('-' :: (pad2 t.d ++ ('T' :: (pad2 t.hh ++
        (':' :: (pad2 t.mi ++ (':' :: (pad2 t.se ++
          ((if t.us = 0 then [] else '.' :: pad6 t.us) ++ renderOffset o))))))))))) := by
    simp [isoformatL, hoff, List.cons_append, List.append_assoc]
  rw [hshape]
  unfold isoParse
  rw [p4_pad4 t.y hy2]
  simp only [obindSome]
  rw [expectC_cons]
  simp only [obindSome]
  rw [p2_pad2 t.m (by omega)]
  simp only [obindSome]
  rw [expectC_cons]
  simp only [obindSome]
  rw [p2_pad2 t.d (by have := daysInMonth_le t.y t.m; omega)]
  simp only [obindSome]
  rw [if_pos (by
    simp only [Bool.and_eq_true, decide_eq_true_eq]
    exact ⟨⟨⟨⟨hy1, hm1⟩, hm2⟩, hd1⟩, hd2⟩)]
  rw [pTimePart_render t.hh t.mi t.se (by omega) (by omega) (by omega)]
  simp only [obindSome]
  by_cases hus0 : t.us = 0
  · rw [hus0]
    simp only [if_true, List.nil_append, reduceIte]
    rw [pFracOpt_renderOffset o]
    simp only [obindSome]
    rw [renderOffset_parse o ho]
    simp only [obindSome]
    rw [if_pos (by
      simp only [Bool.and_eq_true, decide_eq_true_eq]
      exact ⟨⟨⟨trivial, hhh⟩, hmi⟩, hse⟩)]
    rw [← hoff, ← hus0]
    rfl
  · rw [if_neg hus0]
    have hcons : ('.' :: pad6 t.us) ++ renderOffset o = '.' :: (pad6 t.us ++ renderOffset o) := by
      simp
    rw [hcons]
    show (pFrac (pad6 t.us ++ renderOffset o) >>= _) = _
    rw [pFrac_pad6 t.us hus (renderOffset o) (renderOffset_head_not_digit o)]
    simp only [obindSome]
    rw [renderOffset_parse o ho]
    simp only [obindSome]
    rw [if_pos (by
      simp only [Bool.and_eq_true, decide_eq_true_eq]
      exact ⟨⟨⟨trivial, hhh⟩, hmi⟩, hse⟩)]
    rw [← hoff]
    rfl

/-- Characters that the preprocessing replace/strip of _parse_datetime
leaves alone: not a comma and not whitespace. -/
def goodL (l : List Char) : Prop := ∀ c ∈ l, c ≠ ',' ∧ isSpaceC c = false

theorem goodL_nil : goodL [] := by
  intro c hc
  exact absurd hc (List.not_mem_nil c)

theorem goodL_cons {c : Char} {l : List Char} (hc : c ≠ ',' ∧ isSpaceC c = false)
    (hl : goodL l) : goodL (c :: l) := by
  intro x hx
  rcases List.mem_cons.mp hx with rfl | hx'
  · exact hc
  · exact hl x hx'

theorem goodL_append {l r : List Char} (hl : goodL l) (hr : goodL r) : goodL (l ++ r) := by
  intro x hx
  rcases List.mem_append.mp hx with hx' | hx'
  · exact hl x hx'
  · exact hr x hx'

theorem goodL_pad2 (n : Nat) : goodL (pad2 n) := by
  intro c hc
  simp only [pad2, List.mem_cons, List.not_mem_nil, or_false] at hc
  rcases hc with rfl | rfl <;> exact ⟨dChar_ne_comma _, dChar_not_space _⟩

theorem goodL_pad4 (n : Nat) : goodL (pad4 n) :=
  goodL_append (goodL_pad2 _) (goodL_pad2 _)

theorem goodL_pad6 (n : Nat) : goodL (pad6 n) :=
  goodL_append (goodL_append (goodL_pad2 _) (goodL_pad2 _)) (goodL_pad2 _)

theorem goodL_renderOffset (o : Int) : goodL (renderOffset o) := by
  unfold renderOffset
  apply goodL_cons
  · by_cases hneg : o < 0 <;> simp [hneg] <;> decide
  · exact goodL_append (goodL_pad2 _) (goodL_cons (by decide) (goodL_pad2 _))

theorem goodL_isoformat (t : DT) : goodL (isoformatL t) := by
  unfold isoformatL
  refine goodL_append (goodL_append (goodL_append (goodL_append (goodL_append
    (goodL_append (goodL_append (goodL_pad4 _)
      (goodL_cons (by decide) (goodL_pad2 _)))
      (goodL_cons (by decide) (goodL_pad2 _)))
      (goodL_cons (by decide) (goodL_pad2 _)))
      (goodL_cons (by decide) (goodL_pad2 _)))
      (goodL_cons (by decide) (goodL_pad2 _))) ?_) ?_
  · by_cases hus : t.us = 0
    · rw [hus]
      simp only [reduceIte]
      exact goodL_nil
    · rw [if_neg hus]
      exact goodL_cons (by decide) (goodL_pad6 _)
  · cases t.off with
    | none => exact goodL_nil
    | some o => exact goodL_renderOffset o

theorem dropWhile_eq_self_of_all {p : Char → Bool} (l : List Char)
    (h : ∀ c ∈ l, p c = false) : l.dropWhile p = l := by
  cases l with
  | nil => rfl
  | cons x xs => simp [List.dropWhile, h x (List.mem_cons_self _ _)]

theorem cleanL_of_good (l : List Char) (h : goodL l) : cleanL l = l := by
  unfold cleanL
  have hf : l.filter (fun c => c ≠ ',') = l := by
    rw [List.filter_eq_self]
    intro c hc
    simpa using (h c hc).1
  rw [hf]
  rw [dropWhile_eq_self_of_all l (fun c hc => (h c hc).2)]
  rw [dropWhile_eq_self_of_all l.reverse
    (fun c hc => (h c (List.mem_reverse.mp hc)).2)]
  exact List.reverse_reverse l

theorem isoformat_ne_empty (t : DT) : isoformat t ≠ "" := by
  intro hcon
  have hd := congrArg String.data hcon
  have hnil : isoformatL t = [] := hd
  simp [isoformatL, pad4, pad2, List.append_eq_nil] at hnil

/-- None of the four strptime formats matches the rendering of an aware
datetime: the space-separated formats fail at the T separator, and the
T-separated formats leave the unconsumed offset (and fraction) behind. -/
theorem fmtParse_isoformat_none (t : DT) (o : Int) (sep : Char) (withSec : Bool)
    (hy2 : t.y < 10000) (hm1 : 1 ≤ t.m) (hm2 : t.m ≤ 12)
    (hd1 : 1 ≤ t.d) (hd2 : t.d ≤ daysInMonth t.y t.m)
    (hhh : t.hh ≤ 23) (hmi : t.mi ≤ 59) (hse : t.se ≤ 59)
    (hoff : t.off = some o) :
    fmtParse sep withSec (isoformatL t) = none := by
  have hshape : isoformatL t =
      pad4 t.y ++ ('-' :: (pad2 t.m ++ ('-' :: (pad2 t.d ++ ('T' :: (pad2 t.hh ++
        (':' :: (pad2 t.mi ++ (':' :: (pad2 t.se ++
          ((if t.us = 0 then [] else '.' :: pad6 t.us) ++ renderOffset o))))))))))) := by
    simp [isoformatL, hoff, List.cons_append, List.append_assoc]
  have htail : (if t.us = 0 then [] else '.' :: pad6 t.us) ++ renderOffset o ≠ [] := by
    intro hcon
    exact renderOffset_ne_nil o (List.append_eq_nil.mp hcon).2
  rw [hshape]
  unfold fmtParse
  rw [p4_pad4 t.y hy2]
  simp only [obindSome]
  rw [expectC_cons]
  simp only [obindSome]
  simp only [pMonth, pDay, pHour, pMinute, pSecond]
  rw [p2or1_pad2 _ _ t.m (by omega) (by
    simp only [Bool.and_eq_true, decide_eq_true_eq]
    exact ⟨hm1, hm2⟩)]
  simp only [obindSome]
  rw [expectC_cons]
  simp only [obindSome]
  rw [p2or1_pad2 _ _ t.d (by have := daysInMonth_le t.y t.m; omega) (by
    simp only [Bool.and_eq_true, decide_eq_true_eq]
    have := daysInMonth_le t.y t.m
    exact ⟨hd1, by omega⟩)]
  simp only [obindSome]
  by_cases hsep : sep = 'T'
  · subst hsep
    rw [expectC_cons]
    simp only [obindSome]
    rw [p2or1_pad2 _ _ t.hh (by omega) (by
      simp only [decide_eq_true_eq]
      exact hhh)]
    simp only [obindSome]
    rw [expectC_cons]
    simp only [obindSome]
    rw [p2or1_pad2 _ _ t.mi (by omega) (by
      simp only [decide_eq_true_eq]
      exact hmi)]
    simp only [obindSome]
    cases withSec with
    | true =>
        simp only [if_true, reduceIte]
        rw [expectC_cons]
        simp only [obindSome]
        rw [p2or1_pad2 _ _ t.se (by omega) (by
          simp only [Bool.or_eq_true, decide_eq_true_eq]
          omega)]
        simp only [obindSome]
        rw [if_neg (by
          simp only [Bool.and_eq_true, decide_eq_true_eq]
          rintro ⟨⟨⟨hnil, -⟩, -⟩, -⟩
          exact htail hnil)]
    | false => rfl
  · rw [expectC_ne sep 'T' _ (fun hc => hsep hc.symm)]
    simp only [obindNone]

theorem tryFormats_isoformat_none (t : DT) (o : Int)
    (hy2 : t.y < 10000) (hm1 : 1 ≤ t.m) (hm2 : t.m ≤ 12)
    (hd1 : 1 ≤ t.d) (hd2 : t.d ≤ daysInMonth t.y t.m)
    (hhh : t.hh ≤ 23) (hmi : t.mi ≤ 59) (hse : t.se ≤ 59)
    (hoff : t.off = some o) :
    tryFormats (isoformatL t) = none := by
  unfold tryFormats
  rw [fmtParse_isoformat_none t o ' ' true hy2 hm1 hm2 hd1 hd2 hhh hmi hse hoff,
    fmtParse_isoformat_none t o ' ' false hy2 hm1 hm2 hd1 hd2 hhh hmi hse hoff,
    fmtParse_isoformat_none t o 'T' true hy2 hm1 hm2 hd1 hd2 hhh hmi hse hoff,
    fmtParse_isoformat_none t o 'T' false hy2 hm1 hm2 hd1 hd2 hhh hmi hse hoff]
  rfl

theorem foldl_digit_bound (ds : List Char) (acc : Nat)
    (hds : ∀ c ∈ ds, isDigitC c = true) :
    ds.foldl (fun acc c => 10 * acc + dval c) acc < (acc + 1) * 10 ^ ds.length := by
  induction ds generalizing acc with
  | nil => simp
  | cons c ds' ih =>
      have hc := dval_le_of_digit c (hds c (List.mem_cons_self _ _))
      have ih' := ih (10 * acc + dval c) (fun x hx => hds x (List.mem_cons_of_mem _ hx))
      simp only [List.foldl_cons, List.length_cons]
      calc ds'.foldl (fun acc c => 10 * acc + dval c) (10 * acc + dval c)
          < (10 * acc + dval c + 1) * 10 ^ ds'.length := ih'
        _ ≤ (acc + 1) * 10 ^ (ds'.length + 1) := by
            rw [pow_succ]
            have h1 : 10 * acc + dval c + 1 ≤ (acc + 1) * 10 := by omega
            calc (10 * acc + dval c + 1) * 10 ^ ds'.length
                ≤ (acc + 1) * 10 * 10 ^ ds'.length := Nat.mul_le_mul_right _ h1
              _ = (acc + 1) * (10 ^ ds'.length * 10) := by ring

theorem pFrac_lt (l : List Char) (n : Nat) (r : List Char)
    (h : pFrac l = some (n, r)) : n < 1000000 := by
  simp only [pFrac] at h
  by_cases hds : l.takeWhile isDigitC = []
  · rw [if_pos hds] at h
    exact Option.noConfusion h
  · rw [if_neg hds] at h
    have hv : ((l.takeWhile isDigitC).take 6).foldl (fun acc c => 10 * acc + dval c) 0 *
        10 ^ (6 - min 6 (l.takeWhile isDigitC).length) = n :=
      (Prod.mk.inj (Option.some.inj h)).1
    set ds := l.takeWhile isDigitC with hdsdef
    have hlen : (ds.take 6).length = min 6 ds.length := by
      simp [List.length_take]
    have hbound := foldl_digit_bound (ds.take 6) 0
      (fun c hc => List.mem_takeWhile_imp (List.mem_of_mem_take hc))
    rw [hlen] at hbound
    simp only [Nat.zero_add, one_mul] at hbound
    have hmin : min 6 ds.length ≤ 6 := by omega
    calc n = (ds.take 6).foldl (fun acc c => 10 * acc + dval c) 0 *
          10 ^ (6 - min 6 ds.length) := hv.symm
      _ < 10 ^ (min 6 ds.length) * 10 ^ (6 - min 6 ds.length) :=
          Nat.mul_lt_mul_of_pos_right hbound (by positivity)
      _ = 10 ^ 6 := by
          rw [← pow_add]
          congr 1
          omega
      _ = 1000000 := by norm_num

theorem pFracOpt_lt (l : List Char) (n : Nat) (r : List Char)
    (h : pFracOpt l = some (n, r)) : n < 1000000 := by
  cases l with
  | nil =>
      simp only [pFracOpt] at h
      have := (Prod.mk.inj (Option.some.inj h)).1
      omega
  | cons c rest =>
      simp only [pFracOpt] at h
      by_cases hc : c = '.'
      · rw [if_pos hc] at h
        exact pFrac_lt rest n r h
      · rw [if_neg hc] at h
        have := (Prod.mk.inj (Option.some.inj h)).1
        omega

theorem pOffset_bound (l : List Char) (oo : Option Int) (r : List Char)
    (h : pOffset l = some (oo, r)) (o : Int) (ho : oo = some o) : o.natAbs ≤ 1439 := by
  subst ho
  cases l with
  | nil =>
      simp only [pOffset] at h
      exact absurd (Prod.mk.inj (Option.some.inj h)).1 (by simp)
  | cons c rest =>
      by_cases hz : c = 'Z'
      · subst hz
        simp only [pOffset] at h
        rw [if_pos (trivial : True)] at h
        have h0 : (some (0 : Int)) = some o := (Prod.mk.inj (Option.some.inj h)).1
        have : (0 : Int) = o := Option.some.inj h0
        omega
      · by_cases hp : c = '+'
        · subst hp
          rw [pOffset_plus] at h
          cases h1 : p2 rest with
          | none =>
              simp only [h1, obindNone] at h
              exact Option.noConfusion h
          | some ohr =>
              obtain ⟨oh, r1⟩ := ohr
              simp only [h1, obindSome] at h
              cases h2 : expectC ':' r1 with
              | none =>
                  simp only [h2, obindNone] at h
                  exact Option.noConfusion h
              | some r2 =>
                  simp only [h2, obindSome] at h
                  cases h3 : p2 r2 with
                  | none =>
                      simp only [h3, obindNone] at h
                      exact Option.noConfusion h
                  | some omr =>
                      obtain ⟨om, r3⟩ := omr
                      simp only [h3, obindSome] at h
                      by_cases hg : (decide (oh ≤ 23) && decide (om ≤ 59)) = true
                      · rw [if_pos hg] at h
                        have hoo : (some ((oh * 60 + om : Nat) : Int)) = some o :=
                          (Prod.mk.inj (Option.some.inj h)).1
                        have hval : ((oh * 60 + om : Nat) : Int) = o := Option.some.inj hoo
                        simp only [Bool.and_eq_true, decide_eq_true_eq] at hg
                        omega
                      · rw [if_neg hg] at h
                        exact Option.noConfusion h
        · by_cases hm : c = '-'
          · subst hm
            rw [pOffset_minus] at h
            cases h1 : p2 rest with
            | none =>
                simp only [h1, obindNone] at h
                exact Option.noConfusion h
            | some ohr =>
                obtain ⟨oh, r1⟩ := ohr
                simp only [h1, obindSome] at h
                cases h2 : expectC ':' r1 with
                | none =>
                    simp only [h2, obindNone] at h
                    exact Option.noConfusion h
                | some r2 =>
                    simp only [h2, obindSome] at h
                    cases h3 : p2 r2 with
                    | none =>
                        simp only [h3, obindNone] at h
                        exact Option.noConfusion h
                    | some omr =>
                        obtain ⟨om, r3⟩ := omr
                        simp only [h3, obindSome] at h
                        by_cases hg : (decide (oh ≤ 23) && decide (om ≤ 59)) = true
                        · rw [if_pos hg] at h
                          have hoo : (some (-((oh * 60 + om : Nat) : Int))) = some o :=
                            (Prod.mk.inj (Option.some.inj h)).1
                          have hval : -((oh * 60 + om : Nat) : Int) = o := Option.some.inj hoo
                          simp only [Bool.and_eq_true, decide_eq_true_eq] at hg
                          omega
                        · rw [if_neg hg] at h
                          exact Option.noConfusion h
          · simp only [pOffset, if_neg hz, if_neg hp, if_neg hm] at h
            exact Option.noConfusion h

/-- A parsed ISO value satisfies the datetime constructor bounds. -/
theorem isoParse_bounds (l : List Char) (t : DT) (h : isoParse l = some t) :
    1 ≤ t.y ∧ t.y < 10000 ∧ 1 ≤ t.m ∧ t.m ≤ 12 ∧ 1 ≤ t.d ∧ t.d ≤ daysInMonth t.y t.m ∧
      t.hh ≤ 23 ∧ t.mi ≤ 59 ∧ t.se ≤ 59 ∧ t.us < 1000000 ∧
      ∀ o, t.off = some o → o.natAbs ≤ 1439 := by
  unfold isoParse at h
  cases h1 : p4 l with
  | none =>
      simp only [h1, obindNone] at h
      exact Option.noConfusion h
  | some yr =>
      obtain ⟨y, r1⟩ := yr
      have hy4 := p4_lt l y r1 h1
      simp only [h1, obindSome] at h
      cases h2 : expectC '-' r1 with
      | none =>
          simp only [h2, obindNone] at h
          exact Option.noConfusion h
      | some r2 =>
          simp only [h2, obindSome] at h
          cases h3 : p2 r2 with
          | none =>
              simp only [h3, obindNone] at h
              exact Option.noConfusion h
          | some mr =>
              obtain ⟨m, r3⟩ := mr
              simp only [h3, obindSome] at h
              cases h4 : expectC '-' r3 with
              | none =>
                  simp only [h4, obindNone] at h
                  exact Option.noConfusion h
              | some r4 =>
                  simp only [h4, obindSome] at h
                  cases h5 : p2 r4 with
                  | none =>
                      simp only [h5, obindNone] at h
                      exact Option.noConfusion h
                  | some dr =>
                      obtain ⟨d, r5⟩ := dr
                      simp only [h5, obindSome] at h
                      by_cases hg : (decide (1 ≤ y) && decide (1 ≤ m) && decide (m ≤ 12) &&
                          decide (1 ≤ d) && decide (d ≤ daysInMonth y m)) = true
                      · rw [if_pos hg] at h
                        simp only [Bool.and_eq_true, decide_eq_true_eq] at hg
                        obtain ⟨⟨⟨⟨hgy, hgm1⟩, hgm2⟩, hgd1⟩, hgd2⟩ := hg
                        cases r5 with
                        | nil =>
                            have ht := (Option.some.inj h).symm
                            subst ht
                            refine ⟨hgy, hy4, hgm1, hgm2, hgd1, hgd2, by simp, by simp,
                              by simp, by simp, ?_⟩
                            intro o hcon
                            exact absurd hcon (by simp)
                        | cons c r6 =>
                            cases h6 : pTimePart r6 with
                            | none =>
                                simp only [h6, obindNone] at h
                                exact Option.noConfusion h
                            | some tp =>
                                obtain ⟨hh, mi, se, r7⟩ := tp
                                simp only [h6, obindSome] at h
                                cases h7 : pFracOpt r7 with
                                | none =>
                                    simp only [h7, obindNone] at h
                                    exact Option.noConfusion h
                                | some usr =>
                                    obtain ⟨us, r8⟩ := usr
                                    have hus := pFracOpt_lt r7 us r8 h7
                                    simp only [h7, obindSome] at h
                                    cases h8 : pOffset r8 with
                                    | none =>
                                        simp only [h8, obindNone] at h
                                        exact Option.noConfusion h
                                    | some ofr =>
                                        obtain ⟨off, r9⟩ := ofr
                                        simp only [h8, obindSome] at h
                                        by_cases hg2 : (decide (r9 = []) && decide (hh ≤ 23) &&
                                            decide (mi ≤ 59) && decide (se ≤ 59)) = true
                                        · rw [if_pos hg2] at h
                                          simp only [Bool.and_eq_true, decide_eq_true_eq] at hg2
                                          obtain ⟨⟨⟨-, hghh⟩, hgmi⟩, hgse⟩ := hg2
                                          have ht := (Option.some.inj h).symm
                                          subst ht
                                          exact ⟨hgy, hy4, hgm1, hgm2, hgd1, hgd2, hghh, hgmi,
                                            hgse, hus, fun o ho => pOffset_bound r8 off r9 h8 o ho⟩
                                        · rw [if_neg hg2] at h
                                          exact Option.noConfusion h
                      · rw [if_neg hg] at h
                        exact Option.noConfusion h

/-! ## Claim C7 -/

/-- C7: under a resolvable configured timezone, the normalizer is
idempotent on already-ISO, offset-bearing input: such a string normalizes
to the isoformat of its aware parse, and feeding the normalizer its own
output reproduces it unchanged (the canonical rendering fails the four
naive formats because of its unconsumed offset, reparses through the ISO
fallback to the same aware value, and the configured zone is not
reapplied). -/
theorem C7_normalize_idempotent (x tz : String) (zr : ZoneRule)
    (hz : zoneLookup tz = some zr)
    (hf : tryFormats (cleanL x.data) = none)
    (t : DT) (hi : isoParse (cleanL x.data) = some t) (ho : t.off.isSome) :
    (parse_datetime_str x tz).bind (fun y => parse_datetime_str y tz) =
      parse_datetime_str x tz := by
  obtain ⟨o, hoo⟩ := Option.isSome_iff_exists.mp ho
  obtain ⟨hy1, hy2, hm1, hm2, hd1, hd2, hhh, hmi, hse, hus, hob⟩ :=
    isoParse_bounds (cleanL x.data) t hi
  have hono : o.natAbs ≤ 1439 := hob o hoo
  have hxne : x ≠ "" := by
    intro hcon
    rw [hcon, show isoParse (cleanL ("").data) = none from rfl] at hi
    exact Option.noConfusion hi
  have hx : parse_datetime_str x tz = .ok (isoformat t) := by
    unfold parse_datetime_str
    simp [hxne, hz, hf, hi, hoo]
  have hclean : cleanL (isoformat t).data = isoformatL t :=
    cleanL_of_good (isoformatL t) (goodL_isoformat t)
  have hself : parse_datetime_str (isoformat t) tz = .ok (isoformat t) := by
    unfold parse_datetime_str
    rw [if_neg (isoformat_ne_empty t)]
    simp [hz, hclean,
      tryFormats_isoformat_none t o hy2 hm1 hm2 hd1 hd2 hhh hmi hse hoo,
      isoParse_isoformat t o hy1 hy2 hm1 hm2 hd1 hd2 hhh hmi hse hus hoo hono, hoo]
  rw [hx]
  exact hself

theorem C7_witness :
    tryFormats (cleanL ("2024-03-05T14:30:00+02:00").data) = none ∧
    isoParse (cleanL ("2024-03-05T14:30:00+02:00").data) =
      some { y := 2024, m := 3, d := 5, hh := 14, mi := 30, se := 0, us := 0,
             off := some 120 } ∧
    (parse_datetime_str "2024-03-05T14:30:00+02:00" "Europe/London").bind
      (fun y => parse_datetime_str y "Europe/London") =
      parse_datetime_str "2024-03-05T14:30:00+02:00" "Europe/London" := by
  refine ⟨rfl, rfl, ?_⟩
  exact C7_normalize_idempotent "2024-03-05T14:30:00+02:00" "Europe/London" .london rfl rfl
    { y := 2024, m := 3, d := 5, hh := 14, mi := 30, se := 0, us := 0, off := some 120 }
    rfl rfl

end HAWT
